import Mathlib

/-!
# myrevenue_example: calendar-range resolver, network selector, fetch worker

A shallow embedding of `example.go` (package `main`):

* `datesFromHistory` (the range resolver), together with the parts of Go's
  `time` and `strconv` packages it calls;
* `InitNetworks` (the network selector);
* `MakeRequest` (the per-network worker).

Conventions.  Go `string`s are modelled by Lean `String`s, `int`/`int64`
values by `Int`, `uint64` counters by `Nat` with an explicit `% 2 ^ 64`
at every addition.  A Go `error` is modelled by its `Error()` text; a nil
error is `none`.
-/

namespace Myrevenue

set_option maxRecDepth 8000

/-! ## The fetch worker: `MakeRequest` -/

/-- Go `error` value, identified with the text its `Error()` method returns. -/
structure GoError where
  text : String
deriving DecidableEq, Repr

/-- Row type `adnetwork.ReportModel`, restricted to the three fields
`MakeRequest` reads.  `Revenue` is a `float64`, kept abstract as `F`;
`Impressions` and `Requests` are `uint64`. -/
structure ReportModel (F : Type) where
  Revenue : F
  Impressions : Nat
  Requests : Nat

/-- The `float64` operations `MakeRequest` uses: the constant `0`, addition,
and the `%.2f` verb of `fmt.Sprintf`.  Floating point is not interpreted. -/
structure Float64Ops (F : Type) where
  zero : F
  add : F → F → F
  fmt2 : F → String

/-- Interface `adnetwork.Request` as `MakeRequest` uses it.  The methods have
pointer receivers, so each one may change the receiver's state `σ`. -/
structure Request (σ F : Type) where
  Initialize : σ → σ × Option GoError
  Fetch : σ → σ × List (ReportModel F) × Option GoError
  GetName : σ → σ × String

/-- What a run of `MakeRequest` does, in order. -/
inductive Event where
  | callInitialize
  | callFetch
  | callGetName
  | send (msg : String)
deriving DecidableEq, Repr

/-- Wrap-around of `uint64` arithmetic. -/
def u64 (n : Nat) : Nat := n % 2 ^ 64

/-- Loop of `MakeRequest` lines 196-203: the three running totals
`(revenue, impressions, requests)` after visiting the rows in order. -/
def sumLoop {F : Type} (fl : Float64Ops F) :
    List (ReportModel F) → F × Nat × Nat → F × Nat × Nat
  | [], acc => acc
  | r :: rest, (revenue, impressions, requests) =>
    sumLoop fl rest (fl.add revenue r.Revenue, u64 (impressions + r.Impressions),
      u64 (requests + r.Requests))

/-- Format string of line 205:
`"%v\n\tRevenue: $%.2f\n\tRequests: %v\n\tImpressions: %v\n\n"`
applied to `(name, revenue, requests, impressions)`. -/
def Sprintf {F : Type} (fl : Float64Ops F) (name : String) (revenue : F)
    (requests impressions : Nat) : String :=
  name ++ "\n\tRevenue: $" ++ fl.fmt2 revenue ++ "\n\tRequests: " ++ Nat.repr requests
    ++ "\n\tImpressions: " ++ Nat.repr impressions ++ "\n\n"

/-- Function `MakeRequest(n, ch)`: the trace of method calls and channel sends. -/
def MakeRequest {σ F : Type} (fl : Float64Ops F) (n : Request σ F) (s : σ) : List Event :=
  match n.Initialize s with
  | (_, some err) => [Event.callInitialize, Event.send err.text]
  | (s1, none) =>
    match n.Fetch s1 with
    | (_, _, some err) => [Event.callInitialize, Event.callFetch, Event.send err.text]
    | (s2, reportModels, none) =>
      match sumLoop fl reportModels (fl.zero, 0, 0) with
      | (revenue, impressions, requests) =>
        [Event.callInitialize, Event.callFetch, Event.callGetName,
          Event.send (Sprintf fl (n.GetName s2).2 revenue requests impressions)]

/-- Messages sent on the channel, in order. -/
def sent : List Event → List String
  | [] => []
  | Event.send m :: es => m :: sent es
  | _ :: es => sent es

/-- Revenue total: left fold of the `float64` addition from `0`. -/
def revenueTotal {F : Type} (fl : Float64Ops F) (rows : List (ReportModel F)) : F :=
  (rows.map (fun r => r.Revenue)).foldl fl.add fl.zero

/-! ## Go's `time` package

The resolver calls `time.LoadLocation`, `time.Now`, `Time.In`, `Time.AddDate`,
`Time.Year/Month/Day`, `time.Date` and `time.Parse`.  They are embedded here
following the Go standard library: an instant is a count of seconds since
the Unix epoch plus nanoseconds, a location is a list of offset transitions,
and calendar fields are computed from the absolute day count by the
400/100/4/1-year cycle decomposition.  Go's `int`, `int64` and `uint64`
values are unbounded `Int`s here (`int` is taken to be 64 bits wide):
none of the quantities below leaves the 64-bit range for an instant
within Go's supported years. -/

/-- Type `time.Location`: the offset (seconds east of UTC) in force before the
first transition, and the transitions `(when, offset)` in ascending order of
`when` (Unix seconds). -/
structure Location where
  name : String
  zone0 : Int
  tx : List (Int × Int)
deriving DecidableEq, Repr

/-- Lower sentinel of `Location.lookup`: the beginning of time. -/
def zoneAlpha : Int := -(2 ^ 63)

/-- Upper sentinel of `Location.lookup`: the end of time. -/
def zoneOmega : Int := 2 ^ 63 - 1

/-- Search of `Location.lookup`: the entry with the largest `when ≤ sec`,
scanning the ascending transitions with the zone `(off, start)` found so far.
Result `(offset, start, end)`. -/
def lookupFrom (sec : Int) : List (Int × Int) → Int → Int → Int × Int × Int
  | [], off, start => (off, start, zoneOmega)
  | (w, o) :: rest, off, start =>
    if sec < w then (off, start, w) else lookupFrom sec rest o w

/-- Method `(*Location).lookup(sec)`: the zone in use at the instant `sec`,
as `(offset, start, end)` with the zone valid on `[start, end)`. -/
def Location.lookup (l : Location) (sec : Int) : Int × Int × Int :=
  lookupFrom sec l.tx l.zone0 zoneAlpha

/-- Offset of a location at an instant. -/
def Location.offsetAt (l : Location) (sec : Int) : Int := (l.lookup sec).1

/-- Location `time.UTC`. -/
def UTC : Location := { name := "UTC", zone0 := 0, tx := [] }

/-- Type `time.Time`: seconds since the Unix epoch, nanoseconds within the
second, and the location used to present it. -/
structure Time where
  sec : Int
  nsec : Int
  loc : Location
deriving DecidableEq, Repr

def secondsPerMinute : Int := 60
def secondsPerHour : Int := 3600
def secondsPerDay : Int := 86400
def daysPer400Years : Int := 146097
def daysPer100Years : Int := 36524
def daysPer4Years : Int := 1461

/-- Year of the absolute epoch: a year of the form `400 k + 1`, early enough that
absolute times are non-negative. -/
def absoluteZeroYear : Int := -292277022399

def unixToInternal : Int := 62135596800
def internalToUnix : Int := -unixToInternal
def absoluteToInternal : Int := -9223371966579724800
def internalToAbsolute : Int := -absoluteToInternal

/-- Method `Time.abs`: seconds since the absolute epoch of the wall clock the
time shows in its location. -/
def Time.abs (t : Time) : Int :=
  t.sec + t.loc.offsetAt t.sec + (unixToInternal + internalToAbsolute)

/-- Function `isLeap`. -/
def isLeap (year : Int) : Bool :=
  year % 4 == 0 && (year % 100 != 0 || year % 400 == 0)

/-- Table `daysBefore`: `daysBefore i` is the number of days in a non-leap year
before month `i + 1`; there is an entry for `i = 12`. -/
def daysBeforeTable : List Int :=
  [0, 31, 59, 90, 120, 151, 181, 212, 243, 273, 304, 334, 365]

/-- Indexing of `daysBefore`. -/
def daysBefore (i : Int) : Int := daysBeforeTable.getD i.toNat 0

/-- Function `daysIn(m, year)`. -/
def daysIn (m year : Int) : Int :=
  if m = 2 ∧ isLeap year = true then 29 else daysBefore m - daysBefore (m - 1)

/-- Function `daysSinceEpoch(year)`: days from the absolute epoch to the start
of `year`. -/
def daysSinceEpoch (year : Int) : Int :=
  let y := year - absoluteZeroYear
  let n := y / 400
  let y := y - 400 * n
  let d := daysPer400Years * n
  let n := y / 100
  let y := y - 100 * n
  let d := d + daysPer100Years * n
  let n := y / 4
  let y := y - 4 * n
  let d := d + daysPer4Years * n
  let n := y
  d + 365 * n

/-- Function `absDate(abs, false)`: the year and the zero-based day of the year
of an absolute time. -/
def absDate (abs : Int) : Int × Int :=
  let d := abs / secondsPerDay
  let n := d / daysPer400Years
  let y := 400 * n
  let d := d - daysPer400Years * n
  let n := d / daysPer100Years
  let n := n - n / 4
  let y := y + 100 * n
  let d := d - daysPer100Years * n
  let n := d / daysPer4Years
  let y := y + 4 * n
  let d := d - daysPer4Years * n
  let n := d / 365
  let n := n - n / 4
  let y := y + n
  let d := d - 365 * n
  (y + absoluteZeroYear, d)

/-- Second half of `absDate(abs, true)`: month and day of the month from the
year and the zero-based day of the year. -/
def monthDay (year yday : Int) : Int × Int :=
  let leap := isLeap year
  if leap = true ∧ yday = 31 + 29 - 1 then (2, 29)
  else
    let day := if leap = true ∧ yday > 31 + 29 - 1 then yday - 1 else yday
    let month := day / 31
    let e := daysBefore (month + 1)
    if day ≥ e then (month + 1 + 1, day - e + 1)
    else (month + 1, day - daysBefore month + 1)

/-- Function `absDate(abs, true)`: `(year, month, day)`. -/
def absDateFull (abs : Int) : Int × Int × Int :=
  let yd := absDate abs
  let md := monthDay yd.1 yd.2
  (yd.1, md.1, md.2)

/-- Function `absClock(abs)`: `(hour, min, sec)`. -/
def absClock (abs : Int) : Int × Int × Int :=
  let sec := abs % secondsPerDay
  let hour := sec / secondsPerHour
  let sec := sec - hour * secondsPerHour
  let min := sec / secondsPerMinute
  let sec := sec - min * secondsPerMinute
  (hour, min, sec)

/-- Method `Time.Year`. -/
def Time.Year (t : Time) : Int := (absDateFull t.abs).1

/-- Method `Time.Month`. -/
def Time.Month (t : Time) : Int := (absDateFull t.abs).2.1

/-- Method `Time.Day`. -/
def Time.Day (t : Time) : Int := (absDateFull t.abs).2.2

/-- Method `Time.Clock`. -/
def Time.Clock (t : Time) : Int × Int × Int := absClock t.abs

/-- Method `Time.In`. -/
def Time.In (t : Time) (loc : Location) : Time := { t with loc := loc }

/-- Function `norm(hi, lo, base)`: carry `lo` into `hi` so that
`0 ≤ lo < base`. -/
def norm (hi lo base : Int) : Int × Int :=
  let (hi, lo) := if lo < 0 then
      let n := (-lo - 1) / base + 1
      (hi - n, lo + n * base)
    else (hi, lo)
  if lo ≥ base then
    let n := lo / base
    (hi + n, lo - n * base)
  else (hi, lo)

/-- Wall-clock part of `time.Date`: the Unix time of the given fields read as
UTC, and the normalised nanoseconds. -/
def dateUnix (year month day hour min sec nsec : Int) : Int × Int :=
  let m := month - 1
  let (year, m) := norm year m 12
  let month := m + 1
  let (sec, nsec) := norm sec nsec 1000000000
  let (min, sec) := norm min sec 60
  let (hour, min) := norm hour min 60
  let (day, hour) := norm day hour 24
  let d := daysSinceEpoch year
  let d := d + daysBefore (month - 1)
  let d := if isLeap year = true ∧ month ≥ 3 then d + 1 else d
  let d := d + (day - 1)
  let abs := d * secondsPerDay
  let abs := abs + (hour * secondsPerHour + min * secondsPerMinute + sec)
  (abs + (absoluteToInternal + internalToUnix), nsec)

/-- Zone adjustment of `time.Date`: look the wall-clock time up as if it were
UTC, and look again when the instant obtained falls outside the zone found.
For a wall-clock time that a transition skips or repeats the library promises
only a time that is right in one of the two zones.  (Earlier releases look
again at the edge of the zone found, `start - 1` or `end`, rather than at the
instant obtained; the inputs evaluated below come out the same either way.) -/
def zoneAdjust (loc : Location) (unix : Int) : Int :=
  match loc.lookup unix with
  | (offset, start, e) =>
    if offset ≠ 0 then
      let utc := unix - offset
      let offset := if utc < start ∨ utc ≥ e then loc.offsetAt utc else offset
      unix - offset
    else unix

/-- Function `time.Date(year, month, day, hour, min, sec, nsec, loc)`. -/
def Date (year month day hour min sec nsec : Int) (loc : Location) : Time :=
  let un := dateUnix year month day hour min sec nsec
  { sec := zoneAdjust loc un.1, nsec := un.2, loc := loc }

/-- Method `Time.AddDate(years, months, days)`. -/
def Time.AddDate (t : Time) (years months days : Int) : Time :=
  let ymd := absDateFull t.abs
  let hms := t.Clock
  Date (ymd.1 + years) (ymd.2.1 + months) (ymd.2.2 + days) hms.1 hms.2.1 hms.2.2 t.nsec t.loc

/-- Method `Time.Before`. -/
def Time.Before (t u : Time) : Prop := t.sec < u.sec ∨ (t.sec = u.sec ∧ t.nsec < u.nsec)

instance (t u : Time) : Decidable (t.Before u) := by unfold Time.Before; infer_instance

/-! ### `time.Parse` with the layout `"2006-01-02"`

Go strings are byte sequences.  The two parsers below only ever test a byte
for being an ASCII digit, a `-` or a `+`, and reject the input at the first
other byte, so reading the input character by character gives the same
result. -/

/-- Decimal value of an ASCII digit. -/
def digitVal (c : Char) : Option Int :=
  if 48 ≤ c.toNat ∧ c.toNat ≤ 57 then some (Int.ofNat (c.toNat - 48)) else none

/-- Year field (`stdLongYear`): the input needs at least four bytes, the first
a digit, and `atoi` of the first four must consume all of them. -/
def parseLongYear : List Char → Option (Int × List Char)
  | c1 :: c2 :: c3 :: c4 :: rest =>
    match digitVal c1, digitVal c2, digitVal c3, digitVal c4 with
    | some d1, some d2, some d3, some d4 =>
      some (((d1 * 10 + d2) * 10 + d3) * 10 + d4, rest)
    | _, _, _, _ => none
  | _ => none

/-- Function `getnum(s, true)`: exactly two digits. -/
def getnum : List Char → Option (Int × List Char)
  | c1 :: c2 :: rest =>
    match digitVal c1, digitVal c2 with
    | some d1, some d2 => some (d1 * 10 + d2, rest)
    | _, _ => none
  | _ => none

/-- Function `skip(value, "-")`: the literal `-` between two fields. -/
def skipDash : List Char → Option (List Char)
  | c :: rest => if c = '-' then some rest else none
  | [] => none

/-- Fields of `time.Parse("2006-01-02", value)`: year, `-`, two-digit month in
`1..12`, `-`, two-digit day, no text left over, and the day within the
month.  `none` stands for a non-nil error. -/
def parseFields (value : List Char) : Option (Int × Int × Int) :=
  match parseLongYear value with
  | none => none
  | some (year, value) =>
    match skipDash value with
    | none => none
    | some value =>
      match getnum value with
      | none => none
      | some (month, value) =>
        if month ≤ 0 ∨ 12 < month then none
        else
          match skipDash value with
          | none => none
          | some value =>
            match getnum value with
            | none => none
            | some (day, value) =>
              if value ≠ [] then none
              else if day < 1 ∨ day > daysIn month year then none
              else some (year, month, day)

/-- Function `time.Parse("2006-01-02", value)`; the time is built in UTC. -/
def timeParse (value : String) : Option Time :=
  match parseFields value.toList with
  | none => none
  | some (year, month, day) => some (Date year month day 0 0 0 0 UTC)

/-! ### `strconv.ParseInt(s, 10, 32)` -/

/-- The two causes of a `*strconv.NumError`: `ErrSyntax` and `ErrRange`. -/
inductive NumErrKind where
  | invalidSyntaxErr
  | outOfRangeErr
deriving DecidableEq, Repr

/-- Type `*strconv.NumError`. -/
structure NumError where
  Func : String
  Num : String
  Err : NumErrKind
deriving DecidableEq, Repr

/-- Digit loop of `ParseUint(s, 10, 32)`, with `maxVal = 2^32 - 1` and
`cutoff = maxUint64/10 + 1`.  Returns the value and the error, as Go returns
`maxVal` together with a range error. -/
def parseUintLoop : List Char → Int → Int × Option NumErrKind
  | [], n => (n, none)
  | c :: rest, n =>
    match digitVal c with
    | none => (0, some NumErrKind.invalidSyntaxErr)
    | some d =>
      if n ≥ (2 ^ 64 - 1) / 10 + 1 then (2 ^ 32 - 1, some NumErrKind.outOfRangeErr)
      else
        let n := n * 10
        let n1 := (n + d) % 2 ^ 64
        if n1 < n ∨ n1 > 2 ^ 32 - 1 then (2 ^ 32 - 1, some NumErrKind.outOfRangeErr)
        else parseUintLoop rest n1

/-- Function `strconv.ParseUint(s, 10, 32)`. -/
def ParseUint (s : List Char) : Int × Option NumErrKind :=
  if s = [] then (0, some NumErrKind.invalidSyntaxErr) else parseUintLoop s 0

/-- Function `strconv.ParseInt(s, 10, 32)`. -/
def ParseInt (s0 : String) : Int × Option NumError :=
  match s0.toList with
  | [] => (0, some ⟨"ParseInt", s0, NumErrKind.invalidSyntaxErr⟩)
  | c :: rest =>
    let neg := c = '-'
    let s := if c = '+' ∨ c = '-' then rest else c :: rest
    match ParseUint s with
    | (_, some NumErrKind.invalidSyntaxErr) =>
      (0, some ⟨"ParseInt", s0, NumErrKind.invalidSyntaxErr⟩)
    | (un, _) =>
      let cutoff : Int := 2 ^ 31
      if ¬ neg ∧ un ≥ cutoff then (cutoff - 1, some ⟨"ParseInt", s0, NumErrKind.outOfRangeErr⟩)
      else if neg ∧ un > cutoff then (-cutoff, some ⟨"ParseInt", s0, NumErrKind.outOfRangeErr⟩)
      else (if neg then -un else un, none)

/-! ## The range resolver: `datesFromHistory` -/

/-- What the resolver reads from its surroundings: the instant `time.Now()`
reports (every call within one run of the resolver sees the same instant),
its nanoseconds (always within a second), the process's local zone (the
location of `time.Now()`), and the result of `time.LoadLocation`, `none` for
a name that cannot be loaded. -/
structure Env where
  nowSec : Int
  nowNsec : Int
  nsecValid : 0 ≤ nowNsec ∧ nowNsec < 1000000000
  localZone : Location
  loadLocation : String → Option Location

/-- Function `time.Now()`. -/
def Env.Now (env : Env) : Time :=
  { sec := env.nowSec, nsec := env.nowNsec, loc := env.localZone }

/-- Function `datesFromHistory(history, tz)`.  `none` is the process exit of
`log.Fatalln` on a timezone that does not load; otherwise the three return
values `(startDate, endDate, err)`. -/
def datesFromHistory (env : Env) (history tz : String) :
    Option (Time × Time × Option NumError) :=
  match env.loadLocation tz with
  | none => none
  | some loc =>
    if history = "yesterday" then
      let tempDate := env.Now.AddDate 0 0 (-1)
      some (Date tempDate.Year tempDate.Month tempDate.Day 0 0 0 0 loc,
        Date tempDate.Year tempDate.Month tempDate.Day 11 59 59 999999999 loc, none)
    else if history = "today" then
      let tempDate := env.Now.In loc
      some (Date tempDate.Year tempDate.Month tempDate.Day 0 0 0 0 loc,
        Date tempDate.Year tempDate.Month tempDate.Day 11 59 59 999999999 loc, none)
    else if history = "week" then
      let tempDate := (env.Now.In loc).AddDate 0 0 (-7)
      let startDate := Date tempDate.Year tempDate.Month tempDate.Day 0 0 0 0 loc
      let tempDate := (env.Now.In loc).AddDate 0 0 (-1)
      some (startDate,
        Date tempDate.Year tempDate.Month tempDate.Day 11 59 59 999999999 loc, none)
    else if history = "month-to-date" then
      let tempDate := (env.Now.In loc).AddDate 0 0 (-1)
      some (Date tempDate.Year tempDate.Month 1 0 0 0 0 loc,
        Date tempDate.Year tempDate.Month tempDate.Day 11 59 59 999999999 loc, none)
    else
      match timeParse history with
      | some tempDate =>
        some (Date tempDate.Year tempDate.Month tempDate.Day 0 0 0 0 loc,
          Date tempDate.Year tempDate.Month tempDate.Day 11 59 59 999999999 loc, none)
      | none =>
        match ParseInt history with
        | (_, some err) => some (env.Now, env.Now, some err)
        | (days, none) =>
          let tempDate := (env.Now.In loc).AddDate 0 0 (days * -1)
          some (Date tempDate.Year tempDate.Month tempDate.Day 0 0 0 0 loc,
            Date tempDate.Year tempDate.Month tempDate.Day 11 59 59 9999 loc, none)

/-! ## The network selector: `InitNetworks` -/

/-- Section `mopub` of `Config.Network`. -/
structure MoPubConfig where
  APIKey : String
  ReportKey : String
deriving DecidableEq, Repr

/-- Section `mobfox` of `Config.Network`. -/
structure MobfoxConfig where
  APIKey : String
  TimeZone : String
deriving DecidableEq, Repr

/-- Section `flurry` of `Config.Network`. -/
structure FlurryConfig where
  APIKey : String
  TimeZone : String
deriving DecidableEq, Repr

/-- Section `glispa` of `Config.Network`. -/
structure GlispaConfig where
  PublisherID : String
  ClientID : String
  ClientSecret : String
  RefreshToken : String
  Username : String
  Password : String
deriving DecidableEq, Repr

/-- Section `admob` of `Config.Network`. -/
structure AdmobConfig where
  PublisherID : String
  ClientID : String
  ClientSecret : String
  RefreshToken : String
deriving DecidableEq, Repr

/-- Section `inmobi` of `Config.Network`. -/
structure InmobiConfig where
  Username : String
  SecretKey : String
deriving DecidableEq, Repr

/-- Field `Network` of `Config`. -/
structure NetworkConfig where
  MoPub : MoPubConfig
  Mobfox : MobfoxConfig
  Flurry : FlurryConfig
  Glispa : GlispaConfig
  Admob : AdmobConfig
  Inmobi : InmobiConfig
deriving DecidableEq, Repr

/-- Type `Config`. -/
structure Config where
  History : String
  TimeZone : String
  Network : NetworkConfig
deriving DecidableEq, Repr

/-- Value `mopub.ReportRequester{...}` as line 104 fills it in. -/
structure MopubRequester where
  APIKey : String
  ReportKey : String
  StartDate : Time
  EndDate : Time
deriving DecidableEq, Repr

/-- Value `mobfox.ReportRequester{...}` as line 119 fills it in. -/
structure MobfoxRequester where
  APIKey : String
  TimeZone : String
  StartDate : Time
  EndDate : Time
deriving DecidableEq, Repr

/-- Value `flurry.ReportRequester{...}` as line 134 fills it in. -/
structure FlurryRequester where
  APIKey : String
  TimeZone : String
  StartDate : Time
  EndDate : Time
deriving DecidableEq, Repr

/-- Value `glispa.ReportRequester{...}` as line 144 fills it in. -/
structure GlispaRequester where
  PublisherKey : String
  ClientID : String
  ClientSecret : String
  RefreshToken : String
  Username : String
  Password : String
  StartDate : Time
  EndDate : Time
deriving DecidableEq, Repr

/-- Value `admob.ReportRequester{...}` as line 158 fills it in. -/
structure AdmobRequester where
  PublisherID : String
  ClientID : String
  ClientSecret : String
  RefreshToken : String
  StartDate : Time
  EndDate : Time
deriving DecidableEq, Repr

/-- Value `inmobi.ReportRequester{...}` as line 170 fills it in. -/
structure InmobiRequester where
  SecretKey : String
  Username : String
  StartDate : Time
  EndDate : Time
deriving DecidableEq, Repr

/-- An element of the `[]adnetwork.Request` slice `InitNetworks` returns. -/
inductive NetworkTask where
  | mopub (r : MopubRequester)
  | mobfox (r : MobfoxRequester)
  | flurry (r : FlurryRequester)
  | glispa (r : GlispaRequester)
  | admob (r : AdmobRequester)
  | inmobi (r : InmobiRequester)
deriving DecidableEq, Repr

/-- The six supported networks. -/
inductive Network where
  | MoPub | Mobfox | Flurry | Glispa | Admob | Inmobi
deriving DecidableEq, Repr

/-- Network a task belongs to. -/
def NetworkTask.network : NetworkTask → Network
  | .mopub _ => Network.MoPub
  | .mobfox _ => Network.Mobfox
  | .flurry _ => Network.Flurry
  | .glispa _ => Network.Glispa
  | .admob _ => Network.Admob
  | .inmobi _ => Network.Inmobi

/-- Field `StartDate` of a task. -/
def NetworkTask.StartDate : NetworkTask → Time
  | .mopub r => r.StartDate
  | .mobfox r => r.StartDate
  | .flurry r => r.StartDate
  | .glispa r => r.StartDate
  | .admob r => r.StartDate
  | .inmobi r => r.StartDate

/-- Field `EndDate` of a task. -/
def NetworkTask.EndDate : NetworkTask → Time
  | .mopub r => r.EndDate
  | .mobfox r => r.EndDate
  | .flurry r => r.EndDate
  | .glispa r => r.EndDate
  | .admob r => r.EndDate
  | .inmobi r => r.EndDate

/-- Lines 91-94 of `InitNetworks`: the run-wide timezone. -/
def defaultTZ (config : Config) : String :=
  if config.TimeZone.length = 0 then "Etc/UTC" else config.TimeZone

/-- Lines 102-180 of `InitNetworks`: the slice built from the configuration and
the run-wide range. -/
def buildNetworks (config : Config) (startDate endDate : Time) : List NetworkTask :=
  let networks : List NetworkTask := []
  let networks :=
    if config.Network.MoPub.APIKey ≠ "" ∧ config.Network.MoPub.ReportKey ≠ "" then
      networks ++ [NetworkTask.mopub
        { APIKey := config.Network.MoPub.APIKey
          ReportKey := config.Network.MoPub.ReportKey
          StartDate := startDate
          EndDate := endDate }]
    else networks
  let networks :=
    if config.Network.Mobfox.APIKey ≠ "" then
      let tz := config.Network.Mobfox.TimeZone
      let tz := if tz.length = 0 then defaultTZ config else tz
      networks ++ [NetworkTask.mobfox
        { APIKey := config.Network.Mobfox.APIKey
          TimeZone := tz
          StartDate := startDate
          EndDate := endDate }]
    else networks
  let networks :=
    if config.Network.Flurry.APIKey ≠ "" then
      let tz := config.Network.Flurry.TimeZone
      let tz := if tz.length = 0 then defaultTZ config else tz
      networks ++ [NetworkTask.flurry
        { APIKey := config.Network.Flurry.APIKey
          TimeZone := tz
          StartDate := startDate
          EndDate := endDate }]
    else networks
  let networks :=
    if config.Network.Glispa.PublisherID ≠ "" then
      networks ++ [NetworkTask.glispa
        { PublisherKey := config.Network.Glispa.PublisherID
          ClientID := config.Network.Glispa.ClientID
          ClientSecret := config.Network.Glispa.ClientSecret
          RefreshToken := config.Network.Glispa.RefreshToken
          Username := config.Network.Glispa.Username
          Password := config.Network.Glispa.Password
          StartDate := startDate
          EndDate := endDate }]
    else networks
  let networks :=
    if config.Network.Admob.PublisherID ≠ "" then
      networks ++ [NetworkTask.admob
        { PublisherID := config.Network.Admob.PublisherID
          ClientID := config.Network.Admob.ClientID
          ClientSecret := config.Network.Admob.ClientSecret
          RefreshToken := config.Network.Admob.RefreshToken
          StartDate := startDate
          EndDate := endDate }]
    else networks
  let networks :=
    if config.Network.Inmobi.SecretKey ≠ "" then
      networks ++ [NetworkTask.inmobi
        { SecretKey := config.Network.Inmobi.SecretKey
          Username := config.Network.Inmobi.Username
          StartDate := startDate
          EndDate := endDate }]
    else networks
  networks

/-- Function `InitNetworks(config)`.  `none` is the process exit of
`log.Fatalln`, on a timezone that does not load or a history that does not
resolve. -/
def InitNetworks (env : Env) (config : Config) : Option (List NetworkTask) :=
  match datesFromHistory env config.History (defaultTZ config) with
  | none => none
  | some (_, _, some _) => none
  | some (startDate, endDate, none) => some (buildNetworks config startDate endDate)

/-! ## Notions used to state the properties -/

/-- Length of a year in days. -/
def yearLen (y : Int) : Int := if isLeap y = true then 366 else 365

/-- Month and day of a zero-based day of a 365-day year: the
estimate-and-adjust step of `monthDay`. -/
def monthOfDay (day : Int) : Int × Int :=
  if day ≥ daysBefore (day / 31 + 1) then (day / 31 + 1 + 1, day - daysBefore (day / 31 + 1) + 1)
  else (day / 31 + 1, day - daysBefore (day / 31) + 1)

/-- Extra day counted before the dates from March on of a leap year. -/
def leapAdj (y m : Int) : Int := if isLeap y = true ∧ m ≥ 3 then 1 else 0

/-- A month in `1..12` and a day that exists in that month of that year. -/
def ValidDate (y m d : Int) : Prop := 1 ≤ m ∧ m ≤ 12 ∧ 1 ≤ d ∧ d ≤ daysIn m y

/-- Number of the calendar day `y-m-d`, counted from the absolute epoch. -/
def dayNumber (y m d : Int) : Int :=
  daysSinceEpoch y + daysBefore (m - 1) + leapAdj y m + (d - 1)

/-- Calendar date `(year, month, day)` of the day with a given number. -/
def civil (n : Int) : Int × Int × Int := absDateFull (n * secondsPerDay)

/-- Number of the calendar day on which an instant falls in a location. -/
def Time.localDay (t : Time) (loc : Location) : Int := (t.In loc).abs / secondsPerDay

/-- Absolute time of the Unix epoch, `unixToInternal + internalToAbsolute`: what
is added to Unix seconds to count from the absolute epoch. -/
def unixToAbsolute : Int := 9223372028715321600

/-- Order of instants: `s` is not after `e`. -/
def Time.notAfter (s e : Time) : Prop := ¬ e.Before s

instance (s e : Time) : Decidable (s.notAfter e) := by unfold Time.notAfter; infer_instance

/-- The transitions of a location are in ascending order of time, as every
timezone file has them; the search of `lookup` presupposes it. -/
def Location.ascending (loc : Location) : Prop := loc.tx.Pairwise (fun p q => p.1 ≤ q.1)

instance (loc : Location) : Decidable loc.ascending := by
  unfold Location.ascending; infer_instance

/-- Offset that a location has next to the wall-clock time `w` (Unix seconds of
the wall clock, read as if it were UTC): its offset at the instant `w - o`, `o`
being its offset at the instant `w`.  Away from a transition this is the
offset in force; within an offset's distance of a transition it is the offset
on the side of the transition where `w - o` lies. -/
def Location.wallOffset (loc : Location) (w : Int) : Int := loc.offsetAt (w - loc.offsetAt w)

/-- The wall-clock time `a` (seconds since the absolute epoch) exists in a
location: at the instant that lies the offset `wallOffset` before it the
location has that offset, so its clocks show `a` at that instant.  A
wall-clock time that a transition skips does not exist: on either side of the
transition the clocks show another time. -/
def Location.hasWallClock (loc : Location) (a : Int) : Prop :=
  loc.offsetAt (a - unixToAbsolute - loc.wallOffset (a - unixToAbsolute)) =
    loc.wallOffset (a - unixToAbsolute)

instance (loc : Location) (a : Int) : Decidable (loc.hasWallClock a) := by
  unfold Location.hasWallClock; infer_instance

/-! ### The accepted history specifiers, read from the spec -/

/-- An ASCII decimal digit. -/
def IsDigit (c : Char) : Prop := 48 ≤ c.toNat ∧ c.toNat ≤ 57

instance (c : Char) : Decidable (IsDigit c) := by unfold IsDigit; infer_instance

/-- Value of an ASCII decimal digit. -/
def digitNat (c : Char) : Int := Int.ofNat (c.toNat - 48)

/-- Value of a string of decimal digits read after the number `n`. -/
def decimalFrom (n : Int) : List Char → Int
  | [] => n
  | c :: rest => decimalFrom (n * 10 + digitNat c) rest

/-- Value of a string of decimal digits. -/
def decimalValue (l : List Char) : Int := decimalFrom 0 l

/-- The four keywords of the history specifier. -/
def IsKeyword (h : String) : Prop :=
  h = "yesterday" ∨ h = "today" ∨ h = "week" ∨ h = "month-to-date"

/-- Spec-side reading of "a parseable ISO-8601 date (`YYYY-MM-DD`)": four year
digits, a dash, two month digits, a dash, two day digits, naming a day that
exists. -/
def IsIsoDate (h : String) : Prop :=
  ∃ y1 y2 y3 y4 m1 m2 d1 d2 : Char,
    h.toList = [y1, y2, y3, y4, '-', m1, m2, '-', d1, d2] ∧
    (IsDigit y1 ∧ IsDigit y2 ∧ IsDigit y3 ∧ IsDigit y4) ∧
    (IsDigit m1 ∧ IsDigit m2) ∧ (IsDigit d1 ∧ IsDigit d2) ∧
    ValidDate (decimalValue [y1, y2, y3, y4]) (decimalValue [m1, m2]) (decimalValue [d1, d2])

/-- Spec-side reading of "a parseable integer", with the sign and the width made
explicit: an optional sign `+` or `-`, then one or more decimal digits, the
value within the signed 32-bit range. -/
def IsInt32 (h : String) : Prop :=
  ∃ sign digits : List Char, h.toList = sign ++ digits ∧
    (sign = [] ∨ sign = ['+'] ∨ sign = ['-']) ∧ digits ≠ [] ∧ (∀ c ∈ digits, IsDigit c) ∧
    (if sign = ['-'] then decimalValue digits ≤ 2 ^ 31 else decimalValue digits ≤ 2 ^ 31 - 1)

/-! ### Concrete inputs -/

/-- Zone `Asia/Tokyo`: nine hours east of UTC, no transitions. -/
def tokyo : Location := { name := "Asia/Tokyo", zone0 := 32400, tx := [] }

/-- Zone `Europe/Berlin` around 2023: one hour east of UTC, and two hours east
between 2023-03-26 01:00 UTC and 2023-10-29 01:00 UTC. -/
def berlin : Location :=
  { name := "Europe/Berlin", zone0 := 3600, tx := [(1679792400, 7200), (1698541200, 3600)] }

/-- Zone `America/Sao_Paulo` around 2018: three hours west of UTC, and two hours
west between 2018-11-04 03:00 UTC and 2019-02-17 02:00 UTC.  The clocks went
from 2018-11-03 23:59:59 to 2018-11-04 01:00:00: that day has no midnight. -/
def saoPaulo : Location :=
  { name := "America/Sao_Paulo", zone0 := -10800,
    tx := [(1541300400, -7200), (1550368800, -10800)] }

/-- Zone `America/Los_Angeles` in 2011: eight hours west of UTC, and seven hours
west between 2011-03-13 10:00 UTC and 2011-11-06 09:00 UTC. -/
def losAngeles : Location :=
  { name := "America/Los_Angeles", zone0 := -28800,
    tx := [(1300010400, -25200), (1320570000, -28800)] }

/-- A timezone database with four entries. -/
def loadZones (n : String) : Option Location :=
  if n = "Etc/UTC" then some UTC else if n = "Asia/Tokyo" then some tokyo
  else if n = "Europe/Berlin" then some berlin
  else if n = "America/Sao_Paulo" then some saoPaulo else none

/-- Zone `America/Asuncion` in 2017: three hours west of UTC, four hours west
between 2017-03-26 03:00 UTC and 2017-10-01 04:00 UTC.  The clocks went from
2017-09-30 23:59:59 to 2017-10-01 01:00:00: the first day of that month has no
midnight. -/
def asuncion : Location :=
  { name := "America/Asuncion", zone0 := -10800,
    tx := [(1490497200, -14400), (1506830400, -10800)] }

/-- Zone `Pacific/Apia` around the end of 2011: eleven hours west of UTC, ten
hours west from 2011-09-24 14:00 UTC, fourteen hours east from
2011-12-30 10:00 UTC, thirteen hours east from 2012-03-31 14:00 UTC.  The zone
crossed the date line at the end of 2011-12-29: the clocks went from
2011-12-29 23:59:59 to 2011-12-31 00:00:00, and 2011-12-30 has no hour at
all. -/
def apia : Location :=
  { name := "Pacific/Apia", zone0 := -39600,
    tx := [(1316872800, -36000), (1325239200, 50400), (1333202400, 46800)] }

/-- A timezone file of one's own making (`time.LoadLocation` reads the directory
named by `ZONEINFO` before the system's database): a zone that crosses the date
line as `Pacific/Apia` did, but at 06:00 in the morning of 2011-12-30 instead of
midnight.  Ten hours west of UTC until 2011-12-30 16:00 UTC, fourteen hours east
after: the clocks go from 2011-12-30 05:59:59 to 2011-12-31 06:00:00.  No zone
of the timezone database does this. -/
def dateLineAtSix : Location :=
  { name := "Custom/DateLineAtSix", zone0 := -36000, tx := [(1325260800, 50400)] }

/-- Another timezone file of one's own making: UTC, but ten days east of UTC for
the ten seconds from 2023-06-08 12:00:00 UTC on.  No real offset is anywhere
near as large. -/
def tenDaysEast : Location :=
  { name := "Custom/TenDaysEast", zone0 := 0, tx := [(1686225600, 864000), (1686225610, 0)] }

/-- The timezone database above with four more entries. -/
def loadMoreZones (n : String) : Option Location :=
  if n = "America/Asuncion" then some asuncion else if n = "Pacific/Apia" then some apia
  else if n = "Custom/DateLineAtSix" then some dateLineAtSix
  else if n = "Custom/TenDaysEast" then some tenDaysEast else loadZones n

/-- A process in UTC at the instant `sec` (Unix seconds), with the larger
timezone database. -/
def envAt (sec : Int) : Env :=
  { nowSec := sec, nowNsec := 0, nsecValid := by decide, localZone := UTC,
    loadLocation := loadMoreZones }

/-- A process in UTC at 2023-06-15 20:00:00.000000005 UTC, which is
2023-06-16 05:00 in Tokyo. -/
def envJune15 : Env :=
  { nowSec := 1686859200, nowNsec := 5, nsecValid := by decide, localZone := UTC,
    loadLocation := loadZones }

/-- A process in UTC at 2023-07-01 12:00:00 UTC, the first day of a month. -/
def envJuly1 : Env :=
  { nowSec := 1688212800, nowNsec := 0, nsecValid := by decide, localZone := UTC,
    loadLocation := loadZones }

/-- A process in UTC at 2023-03-29 12:00:00 UTC, three days after Berlin moved
its clocks forward. -/
def envMarch29 : Env :=
  { nowSec := 1680091200, nowNsec := 0, nsecValid := by decide, localZone := UTC,
    loadLocation := loadZones }

/-- A process in UTC at 2018-11-11 15:00:00 UTC, which is 13:00 in Sao Paulo, a
week after the day without a midnight. -/
def envNov11 : Env :=
  { nowSec := 1541948400, nowNsec := 0, nsecValid := by decide, localZone := UTC,
    loadLocation := loadZones }

/-- A configuration section with every credential empty. -/
def noNetworks : NetworkConfig :=
  { MoPub := ⟨"", ""⟩, Mobfox := ⟨"", ""⟩, Flurry := ⟨"", ""⟩,
    Glispa := ⟨"", "", "", "", "", ""⟩, Admob := ⟨"", "", "", ""⟩, Inmobi := ⟨"", ""⟩ }

/-- Glispa with a publisher id and nothing else. -/
def cfgGlispaPartial : Config :=
  { History := "today", TimeZone := "Etc/UTC",
    Network := { noNetworks with Glispa := ⟨"pub-1", "", "", "", "", ""⟩ } }

/-- Mobfox enabled with its own timezone, different from the run-wide one. -/
def cfgMobfoxTokyo : Config :=
  { History := "today", TimeZone := "Etc/UTC",
    Network := { noNetworks with Mobfox := ⟨"key-1", "Asia/Tokyo"⟩ } }

/-- Stand-in for `float64` in examples: whole currency units. -/
def wholeUnits : Float64Ops Int :=
  { zero := 0, add := fun a b => a + b, fmt2 := fun x => toString x ++ ".00" }

/-- A network whose `Initialize` succeeds and whose `Fetch` returns two rows. -/
def stubNetwork : Request Unit Int :=
  { Initialize := fun s => (s, none)
    Fetch := fun s => (s, [⟨3, 10, 20⟩, ⟨4, 1, 2⟩], none)
    GetName := fun s => (s, "Stub") }

/-! # Theorems -/

/-! ### Properties of the worker -/

theorem sumLoop_spec {F : Type} (fl : Float64Ops F) (rows : List (ReportModel F)) :
    ∀ (rev : F) (imp req : Nat), imp < 2 ^ 64 → req < 2 ^ 64 →
      sumLoop fl rows (rev, imp, req) =
        ((rows.map (fun r => r.Revenue)).foldl fl.add rev,
          (imp + (rows.map (fun r => r.Impressions)).sum) % 2 ^ 64,
          (req + (rows.map (fun r => r.Requests)).sum) % 2 ^ 64) := by
  induction rows with
  | nil =>
    intro rev imp req hi hr
    simp only [sumLoop, List.map_nil, List.foldl_nil, List.sum_nil, Nat.add_zero,
      Nat.mod_eq_of_lt hi, Nat.mod_eq_of_lt hr]
  | cons r rest ih =>
    intro rev imp req _ _
    have h := ih (fl.add rev r.Revenue) (u64 (imp + r.Impressions)) (u64 (req + r.Requests))
      (Nat.mod_lt _ (by norm_num)) (Nat.mod_lt _ (by norm_num))
    rw [sumLoop, h]
    simp only [List.map_cons, List.foldl_cons, List.sum_cons, u64, Nat.add_assoc,
      Nat.mod_add_mod]

theorem sumLoop_zero {F : Type} (fl : Float64Ops F) (rows : List (ReportModel F)) :
    sumLoop fl rows (fl.zero, 0, 0) =
      (revenueTotal fl rows, (rows.map (fun r => r.Impressions)).sum % 2 ^ 64,
        (rows.map (fun r => r.Requests)).sum % 2 ^ 64) := by
  have h := sumLoop_spec fl rows fl.zero 0 0 (by norm_num) (by norm_num)
  simpa [revenueTotal] using h

/-! ### The calendar: day numbers and dates determine each other -/

theorem isLeap_iff (y : Int) :
    isLeap y = true ↔ (y % 4 = 0 ∧ (y % 100 ≠ 0 ∨ y % 400 = 0)) := by
  simp [isLeap]

theorem absDate_cycles (abs D a b0 b c e0 e : Int)
    (hD : D = abs / 86400) (ha : a = D / 146097)
    (hb0 : b0 = (D - 146097 * a) / 36524) (hb : b = b0 - b0 / 4)
    (hc : c = (D - 146097 * a - 36524 * b) / 1461)
    (he0 : e0 = (D - 146097 * a - 36524 * b - 1461 * c) / 365) (he : e = e0 - e0 / 4) :
    absDate abs = (400 * a + 100 * b + 4 * c + e + absoluteZeroYear,
      D - 146097 * a - 36524 * b - 1461 * c - 365 * e) := by
  subst hD ha hb0 hb hc he0 he
  rfl

theorem daysSinceEpoch_cycles (a b c e : Int) (hb : 0 ≤ b ∧ b ≤ 3) (hc : 0 ≤ c ∧ c ≤ 24)
    (he : 0 ≤ e ∧ e ≤ 3) :
    daysSinceEpoch (400 * a + 100 * b + 4 * c + e + absoluteZeroYear) =
      146097 * a + 36524 * b + 1461 * c + 365 * e := by
  simp only [daysSinceEpoch, absoluteZeroYear, daysPer400Years, daysPer100Years, daysPer4Years]
  omega

theorem absDate_spec (abs : Int) :
    daysSinceEpoch (absDate abs).1 + (absDate abs).2 = abs / 86400 ∧
      0 ≤ (absDate abs).2 ∧ (absDate abs).2 < yearLen (absDate abs).1 := by
  obtain ⟨D, hD⟩ : ∃ D, D = abs / 86400 := ⟨_, rfl⟩
  obtain ⟨a, ha⟩ : ∃ a, a = D / 146097 := ⟨_, rfl⟩
  obtain ⟨b0, hb0⟩ : ∃ b0, b0 = (D - 146097 * a) / 36524 := ⟨_, rfl⟩
  obtain ⟨b, hb⟩ : ∃ b, b = b0 - b0 / 4 := ⟨_, rfl⟩
  obtain ⟨c, hc⟩ : ∃ c, c = (D - 146097 * a - 36524 * b) / 1461 := ⟨_, rfl⟩
  obtain ⟨e0, he0⟩ : ∃ e0, e0 = (D - 146097 * a - 36524 * b - 1461 * c) / 365 := ⟨_, rfl⟩
  obtain ⟨e, he⟩ : ∃ e, e = e0 - e0 / 4 := ⟨_, rfl⟩
  rw [absDate_cycles abs D a b0 b c e0 e hD ha hb0 hb hc he0 he, ← hD]
  have hb0r : 0 ≤ b0 ∧ b0 ≤ 4 := by omega
  have hb' : 0 ≤ b ∧ b ≤ 3 := by omega
  have hbb : b ≤ b0 := by omega
  have hc' : 0 ≤ c ∧ c ≤ 24 := by omega
  have he0r : 0 ≤ e0 ∧ e0 ≤ 4 := by omega
  have he' : 0 ≤ e ∧ e ≤ 3 := by omega
  have hee : e ≤ e0 := by omega
  simp only [daysSinceEpoch_cycles a b c e hb' hc' he', yearLen]
  refine ⟨by omega, by omega, ?_⟩
  by_cases hl : isLeap (400 * a + 100 * b + 4 * c + e + absoluteZeroYear) = true
  · rw [if_pos hl]
    omega
  · rw [if_neg hl]
    rw [isLeap_iff] at hl
    simp only [absoluteZeroYear] at hl
    have h5 : e0 = 0 ∨ e0 = 1 ∨ e0 = 2 ∨ e0 = 3 ∨ e0 = 4 := by omega
    have h6 : b0 = 0 ∨ b0 = 1 ∨ b0 = 2 ∨ b0 = 3 ∨ b0 = 4 := by omega
    rcases h5 with h | h | h | h | h <;> rcases h6 with h' | h' | h' | h' | h' <;>
      subst h <;> subst h' <;> omega

theorem cycles_unique (a b c e k D a' b0 b1 c1 e0 e1 : Int)
    (hb : 0 ≤ b ∧ b ≤ 3) (hc : 0 ≤ c ∧ c ≤ 24) (he : 0 ≤ e ∧ e ≤ 3) (hk0 : 0 ≤ k)
    (hk : k < 365 ∨ (k = 365 ∧ e = 3 ∧ (c ≠ 24 ∨ b = 3)))
    (hD : D = 146097 * a + 36524 * b + 1461 * c + 365 * e + k)
    (ha' : a' = D / 146097) (hb0 : b0 = (D - 146097 * a') / 36524) (hb1 : b1 = b0 - b0 / 4)
    (hc1 : c1 = (D - 146097 * a' - 36524 * b1) / 1461)
    (he0 : e0 = (D - 146097 * a' - 36524 * b1 - 1461 * c1) / 365) (he1 : e1 = e0 - e0 / 4) :
    a' = a ∧ b1 = b ∧ c1 = c ∧ e1 = e := by
  have hr3 : 365 * e + k ≤ 1460 := by omega
  have hr2 : 1461 * c + 365 * e + k ≤ 36524 := by omega
  have hr2' : 1461 * c + 365 * e + k ≤ 36523 ∨ b = 3 := by omega
  have hr1 : 36524 * b + 1461 * c + 365 * e + k ≤ 146096 := by omega
  have e1a : a' = a := by omega
  subst e1a
  have hb0' : b0 = (36524 * b + 1461 * c + 365 * e + k) / 36524 := by
    rw [hb0, hD]; congr 1; ring
  have hb0'' : b0 = b ∨ (b0 = 4 ∧ b = 3) := by omega
  have e2 : b1 = b := by omega
  subst e2
  have hc1' : c1 = (1461 * c + 365 * e + k) / 1461 := by
    rw [hc1, hD]; congr 1; ring
  have e3 : c1 = c := by omega
  subst e3
  have he0' : e0 = (365 * e + k) / 365 := by
    rw [he0, hD]; congr 1; ring
  have he0'' : e0 = e ∨ (e0 = 4 ∧ e = 3) := by omega
  have e4 : e1 = e := by omega
  exact ⟨rfl, rfl, rfl, e4⟩

theorem absDate_of_yday (y k s : Int) (hk : 0 ≤ k ∧ k < yearLen y) (hs : 0 ≤ s ∧ s < 86400) :
    absDate ((daysSinceEpoch y + k) * 86400 + s) = (y, k) := by
  obtain ⟨a, ha⟩ : ∃ a, a = (y - absoluteZeroYear) / 400 := ⟨_, rfl⟩
  obtain ⟨b, hb⟩ : ∃ b, b = (y - absoluteZeroYear - 400 * a) / 100 := ⟨_, rfl⟩
  obtain ⟨c, hc⟩ : ∃ c, c = (y - absoluteZeroYear - 400 * a - 100 * b) / 4 := ⟨_, rfl⟩
  obtain ⟨e, he⟩ : ∃ e, e = y - absoluteZeroYear - 400 * a - 100 * b - 4 * c := ⟨_, rfl⟩
  have hb' : 0 ≤ b ∧ b ≤ 3 := by omega
  have hc' : 0 ≤ c ∧ c ≤ 24 := by omega
  have he' : 0 ≤ e ∧ e ≤ 3 := by omega
  have hy : y = 400 * a + 100 * b + 4 * c + e + absoluteZeroYear := by omega
  have hd : daysSinceEpoch y = 146097 * a + 36524 * b + 1461 * c + 365 * e := by
    rw [hy]; exact daysSinceEpoch_cycles a b c e hb' hc' he'
  have hk' : k < 365 ∨ (k = 365 ∧ e = 3 ∧ (c ≠ 24 ∨ b = 3)) := by
    have h2 := hk.2
    simp only [yearLen] at h2
    by_cases hl : isLeap y = true
    · rw [if_pos hl] at h2
      rw [isLeap_iff] at hl
      simp only [absoluteZeroYear] at hy
      omega
    · rw [if_neg hl] at h2
      omega
  obtain ⟨D, hD⟩ : ∃ D, D = 146097 * a + 36524 * b + 1461 * c + 365 * e + k := ⟨_, rfl⟩
  have hD' : D = ((daysSinceEpoch y + k) * 86400 + s) / 86400 := by rw [hd]; omega
  obtain ⟨a', ha'⟩ : ∃ a', a' = D / 146097 := ⟨_, rfl⟩
  obtain ⟨b0, hb0⟩ : ∃ b0, b0 = (D - 146097 * a') / 36524 := ⟨_, rfl⟩
  obtain ⟨b1, hb1⟩ : ∃ b1, b1 = b0 - b0 / 4 := ⟨_, rfl⟩
  obtain ⟨c1, hc1⟩ : ∃ c1, c1 = (D - 146097 * a' - 36524 * b1) / 1461 := ⟨_, rfl⟩
  obtain ⟨e0, he0⟩ : ∃ e0, e0 = (D - 146097 * a' - 36524 * b1 - 1461 * c1) / 365 := ⟨_, rfl⟩
  obtain ⟨e1, he1⟩ : ∃ e1, e1 = e0 - e0 / 4 := ⟨_, rfl⟩
  rw [absDate_cycles _ D a' b0 b1 c1 e0 e1 hD' ha' hb0 hb1 hc1 he0 he1]
  obtain ⟨r1, r2, r3, r4⟩ := cycles_unique a b c e k D a' b0 b1 c1 e0 e1 hb' hc' he' hk.1 hk'
    hD ha' hb0 hb1 hc1 he0 he1
  rw [r1, r2, r3, r4, ← hy, hD]
  refine Prod.ext rfl ?_
  simp only
  ring

theorem daysBefore_vals :
    daysBefore 0 = 0 ∧ daysBefore 1 = 31 ∧ daysBefore 2 = 59 ∧ daysBefore 3 = 90 ∧
    daysBefore 4 = 120 ∧ daysBefore 5 = 151 ∧ daysBefore 6 = 181 ∧ daysBefore 7 = 212 ∧
    daysBefore 8 = 243 ∧ daysBefore 9 = 273 ∧ daysBefore 10 = 304 ∧ daysBefore 11 = 334 ∧
    daysBefore 12 = 365 := by decide

theorem monthOfDay_spec (day : Int) (hd : 0 ≤ day ∧ day < 365) :
    1 ≤ (monthOfDay day).1 ∧ (monthOfDay day).1 ≤ 12 ∧ 1 ≤ (monthOfDay day).2 ∧
    (monthOfDay day).2 ≤ daysBefore (monthOfDay day).1 - daysBefore ((monthOfDay day).1 - 1) ∧
    daysBefore ((monthOfDay day).1 - 1) + ((monthOfDay day).2 - 1) = day ∧
    ((monthOfDay day).1 ≤ 2 ↔ day < 59) := by
  obtain ⟨h0, h1, h2, h3, h4, h5, h6, h7, h8, h9, h10, h11, h12⟩ := daysBefore_vals
  obtain ⟨m, hm⟩ : ∃ m, m = day / 31 := ⟨_, rfl⟩
  have hm' : m = 0 ∨ m = 1 ∨ m = 2 ∨ m = 3 ∨ m = 4 ∨ m = 5 ∨ m = 6 ∨ m = 7 ∨ m = 8 ∨ m = 9 ∨
      m = 10 ∨ m = 11 := by omega
  unfold monthOfDay
  rw [← hm]
  rcases hm' with h | h | h | h | h | h | h | h | h | h | h | h <;> subst h <;>
    norm_num only [h0, h1, h2, h3, h4, h5, h6, h7, h8, h9, h10, h11, h12] <;>
    split_ifs <;> norm_num only [h0, h1, h2, h3, h4, h5, h6, h7, h8, h9, h10, h11, h12] <;>
    simp only [true_and, true_iff, false_iff, and_true] <;> omega

theorem monthDay_eq (y yd : Int) :
    monthDay y yd = if isLeap y = true ∧ yd = 59 then (2, 29)
      else monthOfDay (if isLeap y = true ∧ yd > 59 then yd - 1 else yd) := rfl

theorem monthOfDay_of_range (m day : Int) (hm : 1 ≤ m ∧ m ≤ 12)
    (h1 : daysBefore (m - 1) ≤ day) (h2 : day < daysBefore m) :
    monthOfDay day = (m, day - daysBefore (m - 1) + 1) := by
  obtain ⟨h0, h1', h2', h3, h4, h5, h6, h7, h8, h9, h10, h11, h12⟩ := daysBefore_vals
  have hm' : m = 1 ∨ m = 2 ∨ m = 3 ∨ m = 4 ∨ m = 5 ∨ m = 6 ∨ m = 7 ∨ m = 8 ∨ m = 9 ∨
      m = 10 ∨ m = 11 ∨ m = 12 := by omega
  unfold monthOfDay
  generalize hq : day / 31 = q
  rcases hm' with h | h | h | h | h | h | h | h | h | h | h | h <;> subst h <;>
    norm_num only [h0, h1', h2', h3, h4, h5, h6, h7, h8, h9, h10, h11, h12] at h1 h2 ⊢
  · have hq' : q = 0 := by omega
    subst hq'
    norm_num only [h0, h1', h2', h3, h4, h5, h6, h7, h8, h9, h10, h11, h12]
    rw [if_neg (by omega)]
  all_goals
    have hq' : q = 0 ∨ q = 1 ∨ q = 2 ∨ q = 3 ∨ q = 4 ∨ q = 5 ∨ q = 6 ∨ q = 7 ∨ q = 8 ∨ q = 9 ∨
      q = 10 ∨ q = 11 := by omega
    rcases hq' with h | h | h | h | h | h | h | h | h | h | h | h <;> subst h <;>
      first
      | omega
      | (norm_num only [h0, h1', h2', h3, h4, h5, h6, h7, h8, h9, h10, h11, h12]
         split_ifs <;> first | rfl | omega)

theorem daysBefore_bounds (m : Int) (hm : 1 ≤ m ∧ m ≤ 12) :
    0 ≤ daysBefore (m - 1) ∧ daysBefore (m - 1) < daysBefore m ∧ daysBefore m ≤ 365 ∧
    (m ≤ 2 → daysBefore m ≤ 59) ∧ (3 ≤ m → 59 ≤ daysBefore (m - 1)) ∧
    (m = 2 → daysBefore m = 59 ∧ daysBefore (m - 1) = 31) := by
  obtain ⟨h0, h1, h2, h3, h4, h5, h6, h7, h8, h9, h10, h11, h12⟩ := daysBefore_vals
  have hm' : m = 1 ∨ m = 2 ∨ m = 3 ∨ m = 4 ∨ m = 5 ∨ m = 6 ∨ m = 7 ∨ m = 8 ∨ m = 9 ∨
      m = 10 ∨ m = 11 ∨ m = 12 := by omega
  rcases hm' with h | h | h | h | h | h | h | h | h | h | h | h <;> subst h <;>
    norm_num only [h0, h1, h2, h3, h4, h5, h6, h7, h8, h9, h10, h11, h12] <;> simp

theorem monthDay_spec (y yd : Int) (h : 0 ≤ yd ∧ yd < yearLen y) :
    ValidDate y (monthDay y yd).1 (monthDay y yd).2 ∧
      daysBefore ((monthDay y yd).1 - 1) + leapAdj y (monthDay y yd).1 +
        ((monthDay y yd).2 - 1) = yd := by
  obtain ⟨hy0, hy1⟩ := h
  rw [monthDay_eq]
  unfold ValidDate leapAdj daysIn
  unfold yearLen at hy1
  by_cases hl : isLeap y = true
  · rw [if_pos hl] at hy1
    simp only [hl, true_and, and_true]
    by_cases h59 : yd = 59
    · subst h59
      obtain ⟨-, h1, -⟩ := daysBefore_vals
      norm_num [h1]
    · rw [if_neg h59]
      by_cases hgt : yd > 59
      · rw [if_pos hgt]
        obtain ⟨s1, s2, s3, s4, s5, s6⟩ := monthOfDay_spec (yd - 1) ⟨by omega, by omega⟩
        have hm3 : 3 ≤ (monthOfDay (yd - 1)).1 := by omega
        rw [if_neg (by omega), if_pos (by omega)]
        omega
      · rw [if_neg hgt]
        obtain ⟨s1, s2, s3, s4, s5, s6⟩ := monthOfDay_spec yd ⟨by omega, by omega⟩
        have hm3 : ¬ (monthOfDay yd).1 ≥ 3 := by omega
        rw [if_neg hm3]
        refine ⟨⟨s1, s2, s3, ?_⟩, by omega⟩
        have b6 := (daysBefore_bounds _ ⟨s1, s2⟩).2.2.2.2.2
        split_ifs with h2
        · have := b6 h2
          omega
        · omega
  · rw [if_neg hl] at hy1
    simp only [hl, false_and, and_false, if_false]
    obtain ⟨s1, s2, s3, s4, s5, s6⟩ := monthOfDay_spec yd ⟨by omega, by omega⟩
    simp only [Bool.false_eq_true, false_and, and_false, if_false]
    omega

theorem monthDay_inv (y m d : Int) (h : ValidDate y m d) :
    monthDay y (daysBefore (m - 1) + leapAdj y m + (d - 1)) = (m, d) ∧
      0 ≤ daysBefore (m - 1) + leapAdj y m + (d - 1) ∧
      daysBefore (m - 1) + leapAdj y m + (d - 1) < yearLen y := by
  obtain ⟨hm1, hm2, hd1, hd2⟩ := h
  obtain ⟨b1, b2, b3, b4, b5, b6⟩ := daysBefore_bounds m ⟨hm1, hm2⟩
  rw [monthDay_eq]
  unfold leapAdj yearLen
  unfold daysIn at hd2
  by_cases hl : isLeap y = true
  · simp only [hl, true_and, and_true, if_true] at hd2 ⊢
    by_cases hm3 : m ≥ 3
    · rw [if_pos hm3]
      rw [if_neg (by omega)] at hd2
      rw [if_neg (by omega), if_pos (by omega)]
      have e : daysBefore (m - 1) + 1 + (d - 1) - 1 = daysBefore (m - 1) + d - 1 := by ring
      rw [e, monthOfDay_of_range m _ ⟨hm1, hm2⟩ (by omega) (by omega)]
      refine ⟨Prod.ext rfl (by simp only; omega), by omega, by omega⟩
    · rw [if_neg hm3]
      by_cases hm2' : m = 2
      · obtain ⟨b7, b8⟩ := b6 hm2'
        rw [if_pos hm2'] at hd2
        by_cases hd29 : d = 29
        · rw [if_pos (by omega)]
          exact ⟨Prod.ext (by simp only; omega) (by simp only; omega), by omega, by omega⟩
        · rw [if_neg (by omega), if_neg (by omega),
            monthOfDay_of_range m _ ⟨hm1, hm2⟩ (by omega) (by omega)]
          refine ⟨Prod.ext rfl (by simp only; omega), by omega, by omega⟩
      · rw [if_neg hm2'] at hd2
        have := b4 (by omega)
        rw [if_neg (by omega), if_neg (by omega),
            monthOfDay_of_range m _ ⟨hm1, hm2⟩ (by omega) (by omega)]
        refine ⟨Prod.ext rfl (by simp only; omega), by omega, by omega⟩
  · simp only [hl, false_and, and_false, if_false, Bool.false_eq_true] at hd2 ⊢
    rw [monthOfDay_of_range m _ ⟨hm1, hm2⟩ (by omega) (by omega)]
    refine ⟨Prod.ext rfl (by simp only; omega), by omega, by omega⟩

/-! ### The fetch worker -/

theorem sent_cases {σ F : Type} (fl : Float64Ops F) (n : Request σ F) (s : σ) :
    (∃ e, (n.Initialize s).2 = some e ∧
        MakeRequest fl n s = [Event.callInitialize, Event.send e.text]) ∨
    ((n.Initialize s).2 = none ∧ ∃ e, (n.Fetch (n.Initialize s).1).2.2 = some e ∧
        MakeRequest fl n s = [Event.callInitialize, Event.callFetch, Event.send e.text]) ∨
    ((n.Initialize s).2 = none ∧ (n.Fetch (n.Initialize s).1).2.2 = none ∧
        MakeRequest fl n s = [Event.callInitialize, Event.callFetch, Event.callGetName,
          Event.send (Sprintf fl (n.GetName (n.Fetch (n.Initialize s).1).1).2
            (revenueTotal fl (n.Fetch (n.Initialize s).1).2.1)
            (((n.Fetch (n.Initialize s).1).2.1.map (fun r => r.Requests)).sum % 2 ^ 64)
            (((n.Fetch (n.Initialize s).1).2.1.map (fun r => r.Impressions)).sum % 2 ^ 64))]) := by
  rcases hi : n.Initialize s with ⟨s1, _ | e⟩
  · rcases hf : n.Fetch s1 with ⟨s2, rows, _ | e⟩
    · right; right
      simp only [MakeRequest, hi, hf, sumLoop_zero, true_and]
    · right; left
      simp only [MakeRequest, hi, hf, true_and]
      exact ⟨e, rfl, rfl⟩
  · left
    simp only [MakeRequest, hi]
    exact ⟨e, rfl, rfl⟩

/-- C7: whatever `Initialize` and `Fetch` return, `MakeRequest` sends exactly one
message.  When `Initialize` fails the message is that error's text and `Fetch`
is not called; when `Initialize` succeeds and `Fetch` fails the message is the
`Fetch` error's text; otherwise it is the one formatted summary. -/
theorem MakeRequest_sends_exactly_one {σ F : Type} (fl : Float64Ops F) (n : Request σ F)
    (s : σ) :
    (sent (MakeRequest fl n s)).length = 1 ∧
    (∀ e, (n.Initialize s).2 = some e →
      sent (MakeRequest fl n s) = [e.text] ∧ Event.callFetch ∉ MakeRequest fl n s) ∧
    (∀ e, (n.Initialize s).2 = none → (n.Fetch (n.Initialize s).1).2.2 = some e →
      sent (MakeRequest fl n s) = [e.text]) ∧
    ((n.Initialize s).2 = none → (n.Fetch (n.Initialize s).1).2.2 = none →
      sent (MakeRequest fl n s) =
        [Sprintf fl (n.GetName (n.Fetch (n.Initialize s).1).1).2
          (sumLoop fl (n.Fetch (n.Initialize s).1).2.1 (fl.zero, 0, 0)).1
          (sumLoop fl (n.Fetch (n.Initialize s).1).2.1 (fl.zero, 0, 0)).2.2
          (sumLoop fl (n.Fetch (n.Initialize s).1).2.1 (fl.zero, 0, 0)).2.1]) := by
  rcases sent_cases fl n s with ⟨e, h1, h2⟩ | ⟨h1, e, h2, h3⟩ | ⟨h1, h2, h3⟩
  · rw [h2]
    refine ⟨rfl, ?_, ?_, ?_⟩
    · intro e' he'
      rw [h1] at he'
      cases he'
      exact ⟨rfl, by simp⟩
    · intro e' he'; rw [h1] at he'; cases he'
    · intro he'; rw [h1] at he'; cases he'
  · rw [h3]
    refine ⟨rfl, ?_, ?_, ?_⟩
    · intro e' he'; rw [h1] at he'; cases he'
    · intro e' _ he'
      rw [h2] at he'
      cases he'
      rfl
    · intro _ he'; rw [h2] at he'; cases he'
  · rw [h3]
    refine ⟨rfl, ?_, ?_, ?_⟩
    · intro e' he'; rw [h1] at he'; cases he'
    · intro e' _ he'; rw [h2] at he'; cases he'
    · intro _ _
      simp only [sent, sumLoop_zero]

/-- C8: when `Initialize` and `Fetch` both succeed, the one message sent is the
network's name, then `Revenue`, then `Requests` with the sum of the rows'
`Requests` modulo `2^64`, then `Impressions` with the sum of the rows'
`Impressions` modulo `2^64`; a sum below `2^64` is shown exactly.  The empty
list gives two zero totals. -/
theorem MakeRequest_summary_totals {σ F : Type} (fl : Float64Ops F) (n : Request σ F) (s s1 s2 : σ)
    (rows : List (ReportModel F)) (hinit : n.Initialize s = (s1, none))
    (hfetch : n.Fetch s1 = (s2, rows, none)) :
    sent (MakeRequest fl n s) =
      [(n.GetName s2).2 ++ "\n\tRevenue: $" ++ fl.fmt2 (revenueTotal fl rows) ++
        "\n\tRequests: " ++ Nat.repr ((rows.map (fun r => r.Requests)).sum % 2 ^ 64) ++
        "\n\tImpressions: " ++ Nat.repr ((rows.map (fun r => r.Impressions)).sum % 2 ^ 64) ++
        "\n\n"] ∧
    ((rows.map (fun r => r.Requests)).sum < 2 ^ 64 →
      (rows.map (fun r => r.Requests)).sum % 2 ^ 64 = (rows.map (fun r => r.Requests)).sum) ∧
    ((rows.map (fun r => r.Impressions)).sum < 2 ^ 64 →
      (rows.map (fun r => r.Impressions)).sum % 2 ^ 64 =
        (rows.map (fun r => r.Impressions)).sum) := by
  refine ⟨?_, fun h => Nat.mod_eq_of_lt h, fun h => Nat.mod_eq_of_lt h⟩
  unfold MakeRequest
  rw [hinit]
  simp only [hfetch, sumLoop_zero, sent, Sprintf]

/-- C8 at a concrete network: two rows with requests 20 and 2 and impressions
10 and 1 give `Requests: 22` and `Impressions: 11`. -/
theorem MakeRequest_summary_totals_witness :
    sent (MakeRequest wholeUnits stubNetwork ()) =
      ["Stub\n\tRevenue: $7.00\n\tRequests: 22\n\tImpressions: 11\n\n"] :=
  (MakeRequest_summary_totals wholeUnits stubNetwork () () ()
    [⟨3, 10, 20⟩, ⟨4, 1, 2⟩] rfl rfl).1

/-! ### Evaluations of the resolver at concrete inputs -/

/-- C1: for the history `2023-06-15` in UTC the resolver succeeds with start
2023-06-15 00:00:00.000000000, and its end is 2023-06-15 11:59:59.999999999,
one nanosecond before noon, where the claim has 23:59:59. -/
theorem explicit_date_end_is_before_noon :
    ∃ s e, datesFromHistory envJune15 "2023-06-15" "Etc/UTC" = some (s, e, none) ∧
      (s.Year, s.Month, s.Day, s.Clock, s.nsec) = (2023, 6, 15, (0, 0, 0), 0) ∧
      (e.Year, e.Month, e.Day, e.Clock, e.nsec) = (2023, 6, 15, (11, 59, 59), 999999999) ∧
      e.Clock ≠ (23, 59, 59) :=
  ⟨⟨1686787200, 0, UTC⟩, ⟨1686830399, 999999999, UTC⟩, by decide, by decide, by decide,
    by decide⟩

/-- C2, as stated, fails.  On 2023-07-01 (12:00 UTC) the start of `month-to-date`
in UTC is 2023-06-01 00:00:00, the first day of the previous month.  On
2017-10-10 in Asuncion, where the first day of the month has no midnight, the
start is 2017-09-30 23:00:00, an hour before the month begins.  On 2017-10-02
at 00:30 in Asuncion, where the day before has no 00:30, the start is
2017-09-01 00:00:00, although neither today nor the day before today is in
September. -/
theorem month_to_date_on_the_first :
    (((envJuly1.Now.In UTC).Year, (envJuly1.Now.In UTC).Month, (envJuly1.Now.In UTC).Day) =
        (2023, 7, 1) ∧
    ∃ s e, datesFromHistory envJuly1 "month-to-date" "Etc/UTC" = some (s, e, none) ∧
      (s.Year, s.Month, s.Day, s.Clock, s.nsec) = (2023, 6, 1, (0, 0, 0), 0)) ∧
    ((((envAt 1507647600).Now.In asuncion).Year, ((envAt 1507647600).Now.In asuncion).Month,
      ((envAt 1507647600).Now.In asuncion).Day) = (2017, 10, 10) ∧
    ∃ s e, datesFromHistory (envAt 1507647600) "month-to-date" "America/Asuncion" =
        some (s, e, none) ∧
      ((s.In asuncion).Year, (s.In asuncion).Month, (s.In asuncion).Day,
        (s.In asuncion).Clock) = (2017, 9, 30, (23, 0, 0))) ∧
    ((((envAt 1506915000).Now.In asuncion).Year, ((envAt 1506915000).Now.In asuncion).Month,
      ((envAt 1506915000).Now.In asuncion).Day, ((envAt 1506915000).Now.In asuncion).Clock) =
        (2017, 10, 2, (0, 30, 0)) ∧
    ∃ s e, datesFromHistory (envAt 1506915000) "month-to-date" "America/Asuncion" =
        some (s, e, none) ∧
      ((s.In asuncion).Year, (s.In asuncion).Month, (s.In asuncion).Day,
        (s.In asuncion).Clock) = (2017, 9, 1, (0, 0, 0))) :=
  ⟨⟨by decide, ⟨1685577600, 0, UTC⟩, ⟨1688126399, 999999999, UTC⟩, by decide, by decide⟩,
    ⟨by decide, ⟨1506826800, 0, asuncion⟩, ⟨1507561199, 999999999, asuncion⟩, by decide,
      by decide⟩,
    ⟨by decide, ⟨1504238400, 0, asuncion⟩, ⟨1506787199, 999999999, asuncion⟩, by decide,
      by decide⟩⟩

/-- C3: at 2023-06-15 20:00 UTC in a process whose local zone is UTC, with the
timezone `Asia/Tokyo` (where it is 2023-06-16), `yesterday` starts on
2023-06-14 00:00 Tokyo time and `1` starts on 2023-06-15 00:00 Tokyo time. -/
theorem yesterday_differs_from_one :
    ∃ s1 e1 s2 e2, datesFromHistory envJune15 "yesterday" "Asia/Tokyo" = some (s1, e1, none) ∧
      datesFromHistory envJune15 "1" "Asia/Tokyo" = some (s2, e2, none) ∧
      (s1.Year, s1.Month, s1.Day, s1.Clock) = (2023, 6, 14, (0, 0, 0)) ∧
      (s2.Year, s2.Month, s2.Day, s2.Clock) = (2023, 6, 15, (0, 0, 0)) ∧
      s1.sec ≠ s2.sec :=
  ⟨⟨1686668400, 0, tokyo⟩, ⟨1686711599, 999999999, tokyo⟩, ⟨1686754800, 0, tokyo⟩,
    ⟨1686797999, 9999, tokyo⟩, by decide, by decide, by decide, by decide, by decide⟩

/-- C4, as stated, fails: the history `-3` is no keyword, no date and no
non-negative integer, and the resolver returns no error for it: it resolves to
the day three days after today. -/
theorem negative_count_is_accepted :
    ∃ s e, datesFromHistory envJune15 "-3" "Etc/UTC" = some (s, e, none) ∧
      (s.Year, s.Month, s.Day) = (2023, 6, 18) ∧
      ((envJune15.Now.In UTC).Year, (envJune15.Now.In UTC).Month,
        (envJune15.Now.In UTC).Day) = (2023, 6, 15) :=
  ⟨⟨1687046400, 0, UTC⟩, ⟨1687089599, 9999, UTC⟩, by decide, by decide, by decide⟩

/-- C5, as stated, fails.  In a zone that crosses the date line at 06:00 in the
morning of 2011-12-30, the history `2011-12-30` resolves without error to a
start at 2011-12-30 00:00:00 (10:00 UTC) and to an end twelve hours before it,
at 2011-12-29 11:59:59 (21:59:59 UTC the day before): that day has no
11:59:59, and `time.Date` answers with the offset of the far side of the
change.  In a zone that is ten days east of UTC for ten seconds, `week`, asked
seven days and five seconds after those ten seconds began, starts on
2023-06-18 00:00:00 and ends on 2023-06-14 11:59:59. -/
theorem end_before_start_across_date_line :
    (∃ s e, datesFromHistory (envAt 1325282400) "2011-12-30" "Custom/DateLineAtSix" =
        some (s, e, none) ∧
      (s.sec, s.Year, s.Month, s.Day, s.Clock) = (1325239200, 2011, 12, 30, (0, 0, 0)) ∧
      (e.sec, e.Year, e.Month, e.Day, e.Clock) = (1325195999, 2011, 12, 29, (11, 59, 59)) ∧
      ¬ s.notAfter e) ∧
    (∃ s e, datesFromHistory (envAt 1686830405) "week" "Custom/TenDaysEast" =
        some (s, e, none) ∧
      (s.Year, s.Month, s.Day, s.Clock) = (2023, 6, 18, (0, 0, 0)) ∧
      (e.Year, e.Month, e.Day, e.Clock) = (2023, 6, 14, (11, 59, 59)) ∧
      ¬ s.notAfter e) :=
  ⟨⟨⟨1325239200, 0, dateLineAtSix⟩, ⟨1325195999, 999999999, dateLineAtSix⟩, by decide,
      by decide, by decide, by decide⟩,
    ⟨⟨1687046400, 0, tenDaysEast⟩, ⟨1686743999, 999999999, tenDaysEast⟩, by decide, by decide,
      by decide, by decide⟩⟩

/-- C6, as stated, fails.  On 2018-11-11 in Sao Paulo the day seven days before
today, 2018-11-04, has no midnight, and the start of `week` is
2018-11-03 23:00:00, on the eighth day before today.  At 00:30 of the same day
the clock time seven days earlier does not exist either, and the start is
2018-11-03 00:00:00.  On 2011-12-31 in Apia the day before today does not
exist, and the end is 11:59:59 of today. -/
theorem week_across_skipped_midnight :
    (((envNov11.Now.In saoPaulo).Year, (envNov11.Now.In saoPaulo).Month,
      (envNov11.Now.In saoPaulo).Day) = (2018, 11, 11) ∧
    ∃ s e, datesFromHistory envNov11 "week" "America/Sao_Paulo" = some (s, e, none) ∧
      ((s.In saoPaulo).Year, (s.In saoPaulo).Month, (s.In saoPaulo).Day,
        (s.In saoPaulo).Clock) = (2018, 11, 3, (23, 0, 0)) ∧
      s.localDay saoPaulo = envNov11.Now.localDay saoPaulo - 8 ∧
      e.localDay saoPaulo = envNov11.Now.localDay saoPaulo - 1) ∧
    ((((envAt 1541903400).Now.In saoPaulo).Year, ((envAt 1541903400).Now.In saoPaulo).Month,
      ((envAt 1541903400).Now.In saoPaulo).Day, ((envAt 1541903400).Now.In saoPaulo).Clock) =
        (2018, 11, 11, (0, 30, 0)) ∧
    ∃ s e, datesFromHistory (envAt 1541903400) "week" "America/Sao_Paulo" = some (s, e, none) ∧
      ((s.In saoPaulo).Year, (s.In saoPaulo).Month, (s.In saoPaulo).Day,
        (s.In saoPaulo).Clock) = (2018, 11, 3, (0, 0, 0)) ∧
      s.localDay saoPaulo = (envAt 1541903400).Now.localDay saoPaulo - 8) ∧
    ((((envAt 1325282400).Now.In apia).Year, ((envAt 1325282400).Now.In apia).Month,
      ((envAt 1325282400).Now.In apia).Day, ((envAt 1325282400).Now.In apia).Clock) =
        (2011, 12, 31, (12, 0, 0)) ∧
    ∃ s e, datesFromHistory (envAt 1325282400) "week" "Pacific/Apia" = some (s, e, none) ∧
      ((e.In apia).Year, (e.In apia).Month, (e.In apia).Day, (e.In apia).Clock) =
        (2011, 12, 31, (11, 59, 59)) ∧
      e.localDay apia = (envAt 1325282400).Now.localDay apia) :=
  ⟨⟨by decide, ⟨1541296800, 0, saoPaulo⟩, ⟨1541858399, 999999999, saoPaulo⟩, by decide,
      by decide, by decide, by decide⟩,
    ⟨by decide, ⟨1541214000, 0, saoPaulo⟩, ⟨1541858399, 999999999, saoPaulo⟩, by decide,
      by decide, by decide⟩,
    ⟨by decide, ⟨1324720800, 0, apia⟩, ⟨1325282399, 999999999, apia⟩, by decide, by decide,
      by decide⟩⟩

/-- Known values of `time.Date` in Los Angeles in 2011, around the two changes of
offset: 01:00 on the day the hour repeats is the first 01:00; 02:30 on the day
the hour is skipped is 01:30 standard time; an hour of `-17` is carried into
the day before. -/
theorem Date_at_zone_transitions :
    (Date 2011 11 6 1 0 0 0 losAngeles).sec = 1320566400 ∧
    (Date 2011 11 6 2 0 0 0 losAngeles).sec = 1320573600 ∧
    (Date 2011 3 13 3 0 0 0 losAngeles).sec = 1300010400 ∧
    (Date 2011 3 13 2 30 0 0 losAngeles).sec = 1300008600 ∧
    (Date 2011 11 19 (-17) 56 35 0 losAngeles).sec = 1321631795 := by decide

/-- C9, as stated, fails: Glispa with a publisher id and an empty client secret
(and every other credential empty) gets a task. -/
theorem glispa_partial_gets_task :
    cfgGlispaPartial.Network.Glispa.ClientSecret = "" ∧
    ∃ nets, InitNetworks envJune15 cfgGlispaPartial = some nets ∧
      ∃ t ∈ nets, t.network = Network.Glispa := by
  refine ⟨rfl, [NetworkTask.glispa ⟨"pub-1", "", "", "", "", "", ⟨1686787200, 0, UTC⟩,
    ⟨1686830399, 999999999, UTC⟩⟩], by decide, _, List.mem_singleton.mpr rfl, rfl⟩

/-- C10, as stated, fails: Mobfox configured with the timezone `Asia/Tokyo` under
the run-wide timezone `Etc/UTC` gets the range resolved in `Etc/UTC`
(2023-06-15), not the one resolved in `Asia/Tokyo` (2023-06-16). -/
theorem mobfox_override_keeps_run_wide_range :
    ∃ r s e, InitNetworks envJune15 cfgMobfoxTokyo = some [NetworkTask.mobfox r] ∧
      r.TimeZone = "Asia/Tokyo" ∧
      datesFromHistory envJune15 cfgMobfoxTokyo.History "Asia/Tokyo" = some (s, e, none) ∧
      datesFromHistory envJune15 cfgMobfoxTokyo.History "Etc/UTC" =
        some (r.StartDate, r.EndDate, none) ∧
      r.StartDate.sec ≠ s.sec ∧ r.EndDate.sec ≠ e.sec :=
  ⟨⟨"key-1", "Asia/Tokyo", ⟨1686787200, 0, UTC⟩, ⟨1686830399, 999999999, UTC⟩⟩,
    ⟨1686841200, 0, tokyo⟩, ⟨1686884399, 999999999, tokyo⟩, by decide, rfl, by decide,
    by decide, by decide, by decide⟩

/-! ### The network selector -/

theorem mem_ite_append {α : Type} (c : Prop) [Decidable c] (l : List α) (x t : α) :
    t ∈ (if c then l ++ [x] else l) ↔ t ∈ l ∨ (c ∧ t = x) := by
  by_cases h : c
  · simp [h]
  · simp [h]

theorem mem_buildNetworks (config : Config) (sd ed : Time) (t : NetworkTask) :
    t ∈ buildNetworks config sd ed ↔
      ((config.Network.MoPub.APIKey ≠ "" ∧ config.Network.MoPub.ReportKey ≠ "") ∧
        t = NetworkTask.mopub ⟨config.Network.MoPub.APIKey, config.Network.MoPub.ReportKey,
          sd, ed⟩) ∨
      (config.Network.Mobfox.APIKey ≠ "" ∧
        t = NetworkTask.mobfox ⟨config.Network.Mobfox.APIKey,
          if config.Network.Mobfox.TimeZone.length = 0 then defaultTZ config
          else config.Network.Mobfox.TimeZone, sd, ed⟩) ∨
      (config.Network.Flurry.APIKey ≠ "" ∧
        t = NetworkTask.flurry ⟨config.Network.Flurry.APIKey,
          if config.Network.Flurry.TimeZone.length = 0 then defaultTZ config
          else config.Network.Flurry.TimeZone, sd, ed⟩) ∨
      (config.Network.Glispa.PublisherID ≠ "" ∧
        t = NetworkTask.glispa ⟨config.Network.Glispa.PublisherID,
          config.Network.Glispa.ClientID, config.Network.Glispa.ClientSecret,
          config.Network.Glispa.RefreshToken, config.Network.Glispa.Username,
          config.Network.Glispa.Password, sd, ed⟩) ∨
      (config.Network.Admob.PublisherID ≠ "" ∧
        t = NetworkTask.admob ⟨config.Network.Admob.PublisherID,
          config.Network.Admob.ClientID, config.Network.Admob.ClientSecret,
          config.Network.Admob.RefreshToken, sd, ed⟩) ∨
      (config.Network.Inmobi.SecretKey ≠ "" ∧
        t = NetworkTask.inmobi ⟨config.Network.Inmobi.SecretKey,
          config.Network.Inmobi.Username, sd, ed⟩) := by
  simp only [buildNetworks, mem_ite_append, List.not_mem_nil, false_or, or_assoc]

theorem InitNetworks_some (env : Env) (config : Config) (nets : List NetworkTask)
    (h : InitNetworks env config = some nets) :
    ∃ sd ed, datesFromHistory env config.History (defaultTZ config) = some (sd, ed, none) ∧
      nets = buildNetworks config sd ed := by
  unfold InitNetworks at h
  rcases hd : datesFromHistory env config.History (defaultTZ config) with _ | ⟨sd, ed, _ | err⟩
  · rw [hd] at h; cases h
  · rw [hd] at h
    simp only [Option.some.injEq] at h
    exact ⟨sd, ed, rfl, h.symm⟩
  · rw [hd] at h; cases h

/-- C9, amended: a network gets a task exactly when its gating fields are
non-empty: MoPub both `api_key` and `report_key`, Mobfox `api_key`, Flurry
`api_key`, Glispa `publisher_id`, Admob `publisher_id`, Inmobi `secret_key`.
With a gating field empty the returned list has no task for that network;
the other credential fields are not looked at. -/
theorem InitNetworks_task_iff_gate (env : Env) (config : Config) (nets : List NetworkTask)
    (h : InitNetworks env config = some nets) :
    ((∃ t ∈ nets, t.network = Network.MoPub) ↔
      config.Network.MoPub.APIKey ≠ "" ∧ config.Network.MoPub.ReportKey ≠ "") ∧
    ((∃ t ∈ nets, t.network = Network.Mobfox) ↔ config.Network.Mobfox.APIKey ≠ "") ∧
    ((∃ t ∈ nets, t.network = Network.Flurry) ↔ config.Network.Flurry.APIKey ≠ "") ∧
    ((∃ t ∈ nets, t.network = Network.Glispa) ↔ config.Network.Glispa.PublisherID ≠ "") ∧
    ((∃ t ∈ nets, t.network = Network.Admob) ↔ config.Network.Admob.PublisherID ≠ "") ∧
    ((∃ t ∈ nets, t.network = Network.Inmobi) ↔ config.Network.Inmobi.SecretKey ≠ "") := by
  obtain ⟨sd, ed, -, rfl⟩ := InitNetworks_some env config nets h
  have hfwd : ∀ t ∈ buildNetworks config sd ed,
      (t.network = Network.MoPub →
        config.Network.MoPub.APIKey ≠ "" ∧ config.Network.MoPub.ReportKey ≠ "") ∧
      (t.network = Network.Mobfox → config.Network.Mobfox.APIKey ≠ "") ∧
      (t.network = Network.Flurry → config.Network.Flurry.APIKey ≠ "") ∧
      (t.network = Network.Glispa → config.Network.Glispa.PublisherID ≠ "") ∧
      (t.network = Network.Admob → config.Network.Admob.PublisherID ≠ "") ∧
      (t.network = Network.Inmobi → config.Network.Inmobi.SecretKey ≠ "") := by
    intro t ht
    rw [mem_buildNetworks] at ht
    rcases ht with ⟨hg, rfl⟩ | ⟨hg, rfl⟩ | ⟨hg, rfl⟩ | ⟨hg, rfl⟩ | ⟨hg, rfl⟩ | ⟨hg, rfl⟩ <;>
      refine ⟨?_, ?_, ?_, ?_, ?_, ?_⟩ <;> intro hn <;> first | exact hg | cases hn
  refine ⟨⟨?_, ?_⟩, ⟨?_, ?_⟩, ⟨?_, ?_⟩, ⟨?_, ?_⟩, ⟨?_, ?_⟩, ⟨?_, ?_⟩⟩
  · rintro ⟨t, ht, hn⟩
    exact (hfwd t ht).1 hn
  · intro hg
    exact ⟨_, (mem_buildNetworks config sd ed _).mpr (Or.inl ⟨hg, rfl⟩), rfl⟩
  · rintro ⟨t, ht, hn⟩
    exact (hfwd t ht).2.1 hn
  · intro hg
    exact ⟨_, (mem_buildNetworks config sd ed _).mpr (Or.inr (Or.inl ⟨hg, rfl⟩)), rfl⟩
  · rintro ⟨t, ht, hn⟩
    exact (hfwd t ht).2.2.1 hn
  · intro hg
    exact ⟨_, (mem_buildNetworks config sd ed _).mpr (Or.inr (Or.inr (Or.inl ⟨hg, rfl⟩))), rfl⟩
  · rintro ⟨t, ht, hn⟩
    exact (hfwd t ht).2.2.2.1 hn
  · intro hg
    exact ⟨_, (mem_buildNetworks config sd ed _).mpr
      (Or.inr (Or.inr (Or.inr (Or.inl ⟨hg, rfl⟩)))), rfl⟩
  · rintro ⟨t, ht, hn⟩
    exact (hfwd t ht).2.2.2.2.1 hn
  · intro hg
    exact ⟨_, (mem_buildNetworks config sd ed _).mpr
      (Or.inr (Or.inr (Or.inr (Or.inr (Or.inl ⟨hg, rfl⟩))))), rfl⟩
  · rintro ⟨t, ht, hn⟩
    exact (hfwd t ht).2.2.2.2.2 hn
  · intro hg
    exact ⟨_, (mem_buildNetworks config sd ed _).mpr
      (Or.inr (Or.inr (Or.inr (Or.inr (Or.inr ⟨hg, rfl⟩))))), rfl⟩

/-- C10, amended: every task `InitNetworks` builds, with or without a timezone
of its own, has `StartDate` and `EndDate` equal to the run-wide range
`datesFromHistory(history, run-wide timezone)`; a Mobfox or Flurry task carries
in its `TimeZone` field the section's own `time_zone` when that is non-empty and
the run-wide timezone otherwise. -/
theorem InitNetworks_tasks_carry_run_wide_range (env : Env) (config : Config)
    (nets : List NetworkTask) (h : InitNetworks env config = some nets) :
    (∀ t ∈ nets, datesFromHistory env config.History (defaultTZ config) =
      some (t.StartDate, t.EndDate, none)) ∧
    (∀ r, NetworkTask.mobfox r ∈ nets →
      r.TimeZone = if config.Network.Mobfox.TimeZone.length = 0 then defaultTZ config
        else config.Network.Mobfox.TimeZone) ∧
    (∀ r, NetworkTask.flurry r ∈ nets →
      r.TimeZone = if config.Network.Flurry.TimeZone.length = 0 then defaultTZ config
        else config.Network.Flurry.TimeZone) := by
  obtain ⟨sd, ed, hd, rfl⟩ := InitNetworks_some env config nets h
  refine ⟨?_, ?_, ?_⟩
  · intro t ht
    rw [mem_buildNetworks] at ht
    rcases ht with ⟨-, rfl⟩ | ⟨-, rfl⟩ | ⟨-, rfl⟩ | ⟨-, rfl⟩ | ⟨-, rfl⟩ | ⟨-, rfl⟩ <;> exact hd
  · intro r hr
    rw [mem_buildNetworks] at hr
    rcases hr with ⟨-, hr⟩ | ⟨-, hr⟩ | ⟨-, hr⟩ | ⟨-, hr⟩ | ⟨-, hr⟩ | ⟨-, hr⟩ <;> cases hr
    rfl
  · intro r hr
    rw [mem_buildNetworks] at hr
    rcases hr with ⟨-, hr⟩ | ⟨-, hr⟩ | ⟨-, hr⟩ | ⟨-, hr⟩ | ⟨-, hr⟩ | ⟨-, hr⟩ <;> cases hr
    rfl

/-- C9 (amended) at a concrete configuration: with only Mobfox configured the list
is the Mobfox task, and it has no Glispa task since the Glispa publisher id is
empty. -/
theorem InitNetworks_task_iff_gate_witness :
    InitNetworks envJune15 cfgMobfoxTokyo =
      some [NetworkTask.mobfox ⟨"key-1", "Asia/Tokyo", ⟨1686787200, 0, UTC⟩,
        ⟨1686830399, 999999999, UTC⟩⟩] ∧
    ((∃ t ∈ [NetworkTask.mobfox ⟨"key-1", "Asia/Tokyo", ⟨1686787200, 0, UTC⟩,
        ⟨1686830399, 999999999, UTC⟩⟩], t.network = Network.Glispa) ↔
      cfgMobfoxTokyo.Network.Glispa.PublisherID ≠ "") :=
  ⟨by decide, (InitNetworks_task_iff_gate envJune15 cfgMobfoxTokyo _ (by decide)).2.2.2.1⟩

/-- C10 (amended) at a concrete configuration: the Glispa task of
`cfgGlispaPartial` carries the range resolved in the run-wide timezone. -/
theorem InitNetworks_tasks_carry_run_wide_range_witness :
    InitNetworks envJune15 cfgGlispaPartial =
      some [NetworkTask.glispa ⟨"pub-1", "", "", "", "", "", ⟨1686787200, 0, UTC⟩,
        ⟨1686830399, 999999999, UTC⟩⟩] ∧
    datesFromHistory envJune15 cfgGlispaPartial.History (defaultTZ cfgGlispaPartial) =
      some (⟨1686787200, 0, UTC⟩, ⟨1686830399, 999999999, UTC⟩, none) :=
  ⟨by decide,
    (InitNetworks_tasks_carry_run_wide_range envJune15 cfgGlispaPartial
      [NetworkTask.glispa ⟨"pub-1", "", "", "", "", "", ⟨1686787200, 0, UTC⟩,
        ⟨1686830399, 999999999, UTC⟩⟩] (by decide)).1 _ (List.mem_singleton.mpr rfl)⟩

/-! ### Dates, clocks and `time.Date` -/

theorem unixToAbsolute_eq : unixToInternal + internalToAbsolute = unixToAbsolute := by decide

theorem absoluteToUnix_eq : absoluteToInternal + internalToUnix = -unixToAbsolute := by decide

theorem absDateFull_spec (abs : Int) :
    ValidDate (absDateFull abs).1 (absDateFull abs).2.1 (absDateFull abs).2.2 ∧
      dayNumber (absDateFull abs).1 (absDateFull abs).2.1 (absDateFull abs).2.2 =
        abs / 86400 := by
  obtain ⟨h1, h2, h3⟩ := absDate_spec abs
  obtain ⟨h4, h5⟩ := monthDay_spec (absDate abs).1 (absDate abs).2 ⟨h2, h3⟩
  refine ⟨h4, ?_⟩
  show daysSinceEpoch (absDate abs).1 + daysBefore ((monthDay (absDate abs).1 (absDate abs).2).1 - 1)
    + leapAdj (absDate abs).1 (monthDay (absDate abs).1 (absDate abs).2).1
    + ((monthDay (absDate abs).1 (absDate abs).2).2 - 1) = abs / 86400
  omega

theorem absDateFull_dayNumber (y m d s : Int) (h : ValidDate y m d) (hs : 0 ≤ s ∧ s < 86400) :
    absDateFull (dayNumber y m d * 86400 + s) = (y, m, d) := by
  obtain ⟨h1, h2, h3⟩ := monthDay_inv y m d h
  have e : dayNumber y m d = daysSinceEpoch y + (daysBefore (m - 1) + leapAdj y m + (d - 1)) := by
    unfold dayNumber; ring
  have h4 := absDate_of_yday y _ s ⟨h2, h3⟩ hs
  rw [← e] at h4
  unfold absDateFull
  simp only [h4, h1]

theorem norm_id (hi lo base : Int) (h : 0 ≤ lo ∧ lo < base) : norm hi lo base = (hi, lo) := by
  unfold norm
  rw [if_neg (by omega)]
  simp only
  rw [if_neg (by omega)]

theorem dateUnix_eq (y m d h mi s ns : Int) (hm : 1 ≤ m ∧ m ≤ 12) (hh : 0 ≤ h ∧ h < 24)
    (hmi : 0 ≤ mi ∧ mi < 60) (hs : 0 ≤ s ∧ s < 60) (hns : 0 ≤ ns ∧ ns < 1000000000) :
    dateUnix y m d h mi s ns =
      (dayNumber y m d * 86400 + (h * 3600 + mi * 60 + s) - unixToAbsolute, ns) := by
  unfold dateUnix
  simp only [norm_id y (m - 1) 12 (by omega), norm_id s ns 1000000000 hns, norm_id mi s 60 hs,
    norm_id h mi 60 hmi, norm_id d h 24 hh, absoluteToUnix_eq, secondsPerDay, secondsPerHour,
    secondsPerMinute, dayNumber, leapAdj]
  refine Prod.ext ?_ rfl
  simp only [Int.sub_add_cancel]
  split_ifs <;> ring

theorem absClock_spec (abs : Int) :
    (0 ≤ (absClock abs).1 ∧ (absClock abs).1 < 24) ∧
    (0 ≤ (absClock abs).2.1 ∧ (absClock abs).2.1 < 60) ∧
    (0 ≤ (absClock abs).2.2 ∧ (absClock abs).2.2 < 60) ∧
    (absClock abs).1 * 3600 + (absClock abs).2.1 * 60 + (absClock abs).2.2 = abs % 86400 := by
  simp only [absClock, secondsPerDay, secondsPerHour, secondsPerMinute]
  omega

theorem zoneAdjust_offset (loc : Location) (x : Int) :
    ∃ u, zoneAdjust loc x = x - loc.offsetAt u := by
  unfold zoneAdjust
  rcases hl : loc.lookup x with ⟨offset, start, e⟩
  have ho : loc.offsetAt x = offset := by unfold Location.offsetAt; rw [hl]
  simp only
  by_cases h0 : offset ≠ 0
  · rw [if_pos h0]
    by_cases h1 : x - offset < start ∨ x - offset ≥ e
    · exact ⟨x - offset, by simp only [if_pos h1]⟩
    · exact ⟨x, by simp only [if_neg h1, ho]⟩
  · rw [if_neg h0]
    exact ⟨x, by rw [ho]; omega⟩

theorem lookupFrom_start_le (sec : Int) (l : List (Int × Int)) :
    ∀ off start, l.Pairwise (fun p q => p.1 ≤ q.1) → (∀ p ∈ l, start ≤ p.1) →
      start ≤ (lookupFrom sec l off start).2.1 := by
  induction l with
  | nil => intro off start _ _; exact le_refl _
  | cons p rest ih =>
    intro off start hp hs
    obtain ⟨w, o⟩ := p
    unfold lookupFrom
    by_cases h : sec < w
    · rw [if_pos h]
    · rw [if_neg h]
      have h1 := List.pairwise_cons.mp hp
      have h2 := ih o w h1.2 (fun q hq => h1.1 q hq)
      have h3 := hs (w, o) (List.mem_cons_self _ _)
      exact le_trans h3 h2

theorem lookupFrom_consistent (sec u : Int) (l : List (Int × Int)) :
    ∀ off start start', l.Pairwise (fun p q => p.1 ≤ q.1) →
      (lookupFrom sec l off start).2.1 ≤ u → u < (lookupFrom sec l off start).2.2 →
      (lookupFrom u l off start').1 = (lookupFrom sec l off start).1 := by
  induction l with
  | nil => intro off start start' _ _ _; rfl
  | cons p rest ih =>
    intro off start start' hp h1 h2
    obtain ⟨w, o⟩ := p
    have hp' := List.pairwise_cons.mp hp
    unfold lookupFrom at h1 h2 ⊢
    by_cases h : sec < w
    · rw [if_pos h] at h1 h2 ⊢
      rw [if_pos h2]
    · rw [if_neg h] at h1 h2 ⊢
      have h3 := lookupFrom_start_le sec rest o w hp'.2 (fun q hq => hp'.1 q hq)
      rw [if_neg (by omega)]
      exact ih o w w hp'.2 h1 h2

/-- The offset that `time.Date` applies to a wall-clock time is the offset the
location has next to it. -/
theorem zoneAdjust_eq (loc : Location) (hasc : loc.ascending) (w : Int) :
    zoneAdjust loc w = w - loc.wallOffset w := by
  unfold zoneAdjust Location.wallOffset
  rcases hl : loc.lookup w with ⟨offset, start, e⟩
  have ho : loc.offsetAt w = offset := by unfold Location.offsetAt; rw [hl]
  rw [ho]
  simp only
  by_cases h0 : offset ≠ 0
  · rw [if_pos h0]
    by_cases h1 : w - offset < start ∨ w - offset ≥ e
    · simp only [if_pos h1]
    · simp only [if_neg h1]
      have h2 : loc.offsetAt (w - offset) = offset := by
        have := lookupFrom_consistent w (w - offset) loc.tx loc.zone0 zoneAlpha zoneAlpha hasc
        unfold Location.lookup at hl
        rw [hl] at this
        unfold Location.offsetAt Location.lookup
        exact this (by simp only; omega) (by simp only; omega)
      rw [h2]
  · rw [if_neg h0]
    have h3 : offset = 0 := by omega
    subst h3
    rw [sub_zero, ho, sub_zero]

theorem Date_eq (y m d h mi s ns : Int) (loc : Location) (hm : 1 ≤ m ∧ m ≤ 12)
    (hh : 0 ≤ h ∧ h < 24) (hmi : 0 ≤ mi ∧ mi < 60) (hs : 0 ≤ s ∧ s < 60)
    (hns : 0 ≤ ns ∧ ns < 1000000000) :
    Date y m d h mi s ns loc =
      { sec := zoneAdjust loc (dayNumber y m d * 86400 + (h * 3600 + mi * 60 + s) - unixToAbsolute)
        nsec := ns
        loc := loc } := by
  unfold Date
  rw [dateUnix_eq y m d h mi s ns hm hh hmi hs hns]

theorem dayNumber_add (y m d k : Int) : dayNumber y m (d + k) = dayNumber y m d + k := by
  unfold dayNumber; ring

theorem Time.fields_valid (t : Time) : ValidDate t.Year t.Month t.Day :=
  (absDateFull_spec t.abs).1

theorem Time.fields_dayNumber (t : Time) : dayNumber t.Year t.Month t.Day = t.abs / 86400 :=
  (absDateFull_spec t.abs).2

theorem Time.abs_eq (t : Time) : t.abs = t.sec + t.loc.offsetAt t.sec + unixToAbsolute := by
  unfold Time.abs; rw [unixToAbsolute_eq]

theorem AddDate_days (t : Time) (k : Int) (hns : 0 ≤ t.nsec ∧ t.nsec < 1000000000) :
    t.AddDate 0 0 k =
      { sec := zoneAdjust t.loc (t.abs + k * 86400 - unixToAbsolute)
        nsec := t.nsec
        loc := t.loc } := by
  obtain ⟨c1, c2, c3, c4⟩ := absClock_spec t.abs
  obtain ⟨v, hd⟩ := absDateFull_spec t.abs
  unfold Time.AddDate Time.Clock
  simp only [add_zero]
  rw [Date_eq _ _ _ _ _ _ _ _ ⟨v.1, v.2.1⟩ c1 c2 c3 hns, dayNumber_add, hd, c4]
  congr 2
  omega

theorem absDateFull_congr (a b : Int) (h : a / 86400 = b / 86400) :
    absDateFull a = absDateFull b := by
  have e : absDate a = absDate b := by
    simp only [absDate, secondsPerDay, h]
  unfold absDateFull
  rw [e]

theorem absClock_midnight (n : Int) : absClock (n * 86400) = (0, 0, 0) := by
  simp only [absClock, secondsPerDay, secondsPerHour, secondsPerMinute]
  refine Prod.ext ?_ (Prod.ext ?_ ?_) <;> simp only <;> omega

/-! ### Start before end -/

theorem Date_order (loc : Location) (hasc : loc.ascending)
    (H : ∀ n m : Int, n ≤ m →
      loc.wallOffset (m * 86400 + 43199 - unixToAbsolute) -
        loc.wallOffset (n * 86400 - unixToAbsolute) < 43200 + (m - n) * 86400)
    (y1 m1 d1 y2 m2 d2 ns : Int) (hm1 : 1 ≤ m1 ∧ m1 ≤ 12) (hm2 : 1 ≤ m2 ∧ m2 ≤ 12)
    (hns : 0 ≤ ns ∧ ns < 1000000000) (hd : dayNumber y1 m1 d1 ≤ dayNumber y2 m2 d2) :
    (Date y1 m1 d1 0 0 0 0 loc).notAfter (Date y2 m2 d2 11 59 59 ns loc) := by
  rw [Date_eq y1 m1 d1 0 0 0 0 loc hm1 (by omega) (by omega) (by omega) (by omega),
    Date_eq y2 m2 d2 11 59 59 ns loc hm2 (by omega) (by omega) (by omega) hns,
    zoneAdjust_eq loc hasc, zoneAdjust_eq loc hasc]
  have h3 := H _ _ hd
  have e1 : dayNumber y1 m1 d1 * 86400 + (0 * 3600 + 0 * 60 + 0) - unixToAbsolute =
      dayNumber y1 m1 d1 * 86400 - unixToAbsolute := by ring
  have e2 : dayNumber y2 m2 d2 * 86400 + (11 * 3600 + 59 * 60 + 59) - unixToAbsolute =
      dayNumber y2 m2 d2 * 86400 + 43199 - unixToAbsolute := by ring
  rw [e1, e2]
  unfold Time.notAfter Time.Before
  simp only
  omega

theorem Date_same_day_order (loc : Location) (hasc : loc.ascending)
    (H : ∀ n m : Int, n ≤ m →
      loc.wallOffset (m * 86400 + 43199 - unixToAbsolute) -
        loc.wallOffset (n * 86400 - unixToAbsolute) < 43200 + (m - n) * 86400)
    (t : Time) (ns : Int) (hns : 0 ≤ ns ∧ ns < 1000000000) :
    (Date t.Year t.Month t.Day 0 0 0 0 loc).notAfter
      (Date t.Year t.Month t.Day 11 59 59 ns loc) :=
  Date_order loc hasc H _ _ _ _ _ _ ns ⟨t.fields_valid.1, t.fields_valid.2.1⟩
    ⟨t.fields_valid.1, t.fields_valid.2.1⟩ hns (le_refl _)

theorem week_days_order (loc : Location)
    (hbound : ∀ u, -129600 ≤ loc.offsetAt u ∧ loc.offsetAt u ≤ 129600)
    (t : Time) (hl : t.loc = loc) (hns : 0 ≤ t.nsec ∧ t.nsec < 1000000000) :
    (t.AddDate 0 0 (-7)).abs / 86400 ≤ (t.AddDate 0 0 (-1)).abs / 86400 := by
  rw [AddDate_days t (-7) hns, AddDate_days t (-1) hns]
  simp only [Time.abs_eq, hl]
  obtain ⟨u1, h1⟩ := zoneAdjust_offset loc (t.sec + loc.offsetAt t.sec + unixToAbsolute +
    -7 * 86400 - unixToAbsolute)
  obtain ⟨u2, h2⟩ := zoneAdjust_offset loc (t.sec + loc.offsetAt t.sec + unixToAbsolute +
    -1 * 86400 - unixToAbsolute)
  rw [h1, h2]
  have b1 := hbound u1
  have b2 := hbound u2
  have b3 := hbound (t.sec + loc.offsetAt t.sec + unixToAbsolute + -7 * 86400 - unixToAbsolute -
    loc.offsetAt u1)
  have b4 := hbound (t.sec + loc.offsetAt t.sec + unixToAbsolute + -1 * 86400 - unixToAbsolute -
    loc.offsetAt u2)
  apply Int.ediv_le_ediv (by norm_num)
  omega

/-- C5, amended: whenever the resolver returns no error (a keyword, an explicit
date or an accepted integer), the start it returns is not after the end,
provided the timezone is a location with its transitions in ascending order
and its UTC offsets within 36 hours of UTC in which, for every calendar day and
every calendar day not before it, the offset next to 11:59:59 of the later day
is less than twelve hours, plus the days between the two, east of the offset
next to 00:00:00 of the earlier day: no day has its clocks set forward by
twelve hours or more between its midnight and its noon. -/
theorem datesFromHistory_start_le_end (env : Env) (history tz : String) (loc : Location)
    (s e : Time) (hload : env.loadLocation tz = some loc) (hasc : loc.ascending)
    (hbound : ∀ u, -129600 ≤ loc.offsetAt u ∧ loc.offsetAt u ≤ 129600)
    (hzone : ∀ n m : Int, n ≤ m →
      loc.wallOffset (m * 86400 + 43199 - unixToAbsolute) -
        loc.wallOffset (n * 86400 - unixToAbsolute) < 43200 + (m - n) * 86400)
    (hres : datesFromHistory env history tz = some (s, e, none)) :
    s.notAfter e := by
  unfold datesFromHistory at hres
  rw [hload] at hres
  simp only at hres
  have hnow : 0 ≤ env.Now.nsec ∧ env.Now.nsec < 1000000000 := env.nsecValid
  have hnow' : 0 ≤ (env.Now.In loc).nsec ∧ (env.Now.In loc).nsec < 1000000000 := env.nsecValid
  split_ifs at hres with h1 h2 h3 h4
  · simp only [Option.some.injEq, Prod.mk.injEq, and_true] at hres
    obtain ⟨rfl, rfl⟩ := hres
    exact Date_same_day_order loc hasc hzone _ _ (by omega)
  · simp only [Option.some.injEq, Prod.mk.injEq, and_true] at hres
    obtain ⟨rfl, rfl⟩ := hres
    exact Date_same_day_order loc hasc hzone _ _ (by omega)
  · simp only [Option.some.injEq, Prod.mk.injEq, and_true] at hres
    obtain ⟨rfl, rfl⟩ := hres
    refine Date_order loc hasc hzone _ _ _ _ _ _ _
      ⟨(Time.fields_valid _).1, (Time.fields_valid _).2.1⟩
      ⟨(Time.fields_valid _).1, (Time.fields_valid _).2.1⟩ (by omega) ?_
    rw [Time.fields_dayNumber, Time.fields_dayNumber]
    exact week_days_order loc hbound (env.Now.In loc) rfl hnow'
  · simp only [Option.some.injEq, Prod.mk.injEq, and_true] at hres
    obtain ⟨rfl, rfl⟩ := hres
    have hv := Time.fields_valid ((env.Now.In loc).AddDate 0 0 (-1))
    refine Date_order loc hasc hzone _ _ _ _ _ _ _ ⟨hv.1, hv.2.1⟩ ⟨hv.1, hv.2.1⟩ (by omega) ?_
    have := hv.2.2.1
    unfold dayNumber
    omega
  · rcases hp : timeParse history with _ | tempDate
    · rw [hp] at hres
      simp only at hres
      rcases hi : ParseInt history with ⟨days, _ | err⟩
      · rw [hi] at hres
        simp only [Option.some.injEq, Prod.mk.injEq, and_true] at hres
        obtain ⟨rfl, rfl⟩ := hres
        exact Date_same_day_order loc hasc hzone _ _ (by omega)
      · rw [hi] at hres
        simp only [Option.some.injEq, Prod.mk.injEq] at hres
        exact absurd hres.2.2 (by simp)
    · rw [hp] at hres
      simp only [Option.some.injEq, Prod.mk.injEq, and_true] at hres
      obtain ⟨rfl, rfl⟩ := hres
      exact Date_same_day_order loc hasc hzone _ _ (by omega)

/-! ### The keyword ranges where the wall-clock times exist -/

theorem Time.ymd_eq (t : Time) : (t.Year, t.Month, t.Day) = absDateFull t.abs := rfl

theorem civil_of_abs (a n : Int) (h : a / 86400 = n) : absDateFull a = civil n := by
  unfold civil
  apply absDateFull_congr
  simp only [secondsPerDay]
  omega

theorem Time.abs_found (loc : Location) (hasc : loc.ascending) (a ns : Int)
    (h : loc.hasWallClock a) :
    (Time.mk (zoneAdjust loc (a - unixToAbsolute)) ns loc).abs = a := by
  rw [Time.abs_eq, zoneAdjust_eq loc hasc]
  show a - unixToAbsolute - loc.wallOffset (a - unixToAbsolute) +
    loc.offsetAt (a - unixToAbsolute - loc.wallOffset (a - unixToAbsolute)) + unixToAbsolute = a
  unfold Location.hasWallClock at h
  rw [h]; ring

theorem AddDate_found (t : Time) (k : Int) (hasc : t.loc.ascending)
    (hns : 0 ≤ t.nsec ∧ t.nsec < 1000000000) (h : t.loc.hasWallClock (t.abs + k * 86400)) :
    (t.AddDate 0 0 k).abs = t.abs + k * 86400 := by
  rw [AddDate_days t k hns]
  exact Time.abs_found t.loc hasc _ _ h

/-- C6, amended: in a timezone, its transitions in ascending order, in which the
four wall-clock times that the resolver hands to `time.Date` exist (the
current wall-clock time seven days earlier and one day earlier, 00:00:00 of the
day seven days before today, 11:59:59 of the day before today), `week` resolves
to a start at 00:00:00.000000000 of the calendar day seven days before today
and to an end that falls on the calendar day before today, today being the
current date in that timezone: the range touches exactly the seven calendar
days that end the day before today. -/
theorem week_range (env : Env) (tz : String) (loc : Location)
    (hload : env.loadLocation tz = some loc) (hasc : loc.ascending)
    (h7 : loc.hasWallClock ((env.Now.In loc).abs - 7 * 86400))
    (h1 : loc.hasWallClock ((env.Now.In loc).abs - 1 * 86400))
    (hs : loc.hasWallClock ((env.Now.localDay loc - 7) * 86400))
    (he : loc.hasWallClock ((env.Now.localDay loc - 1) * 86400 + 43199)) :
    ∃ s e, datesFromHistory env "week" tz = some (s, e, none) ∧
      s.localDay loc = env.Now.localDay loc - 7 ∧
      (s.In loc).Clock = (0, 0, 0) ∧ s.nsec = 0 ∧
      ((s.In loc).Year, (s.In loc).Month, (s.In loc).Day) = civil (env.Now.localDay loc - 7) ∧
      e.localDay loc = env.Now.localDay loc - 1 ∧
      ((e.In loc).Year, (e.In loc).Month, (e.In loc).Day) = civil (env.Now.localDay loc - 1) ∧
      e.localDay loc - s.localDay loc + 1 = 7 := by
  have hns : 0 ≤ (env.Now.In loc).nsec ∧ (env.Now.In loc).nsec < 1000000000 := env.nsecValid
  obtain ⟨A, hA⟩ : ∃ A, A = (env.Now.In loc).abs := ⟨_, rfl⟩
  obtain ⟨T, hT⟩ : ∃ T, T = env.Now.localDay loc := ⟨_, rfl⟩
  have hTA : T = A / 86400 := by rw [hT, hA]; rfl
  rw [← hA] at h7 h1
  rw [← hT] at hs he ⊢
  -- the two intermediate dates
  have ha7 : ((env.Now.In loc).AddDate 0 0 (-7)).abs = A - 7 * 86400 := by
    rw [AddDate_found _ _ hasc hns (by rw [← hA]; exact (by ring_nf; ring_nf at h7; exact h7)), ← hA]
    ring
  have ha1 : ((env.Now.In loc).AddDate 0 0 (-1)).abs = A - 1 * 86400 := by
    rw [AddDate_found _ _ hasc hns (by rw [← hA]; exact (by ring_nf; ring_nf at h1; exact h1)), ← hA]
    ring
  have hd7 := Time.fields_dayNumber ((env.Now.In loc).AddDate 0 0 (-7))
  have hd1 := Time.fields_dayNumber ((env.Now.In loc).AddDate 0 0 (-1))
  have hv7 := Time.fields_valid ((env.Now.In loc).AddDate 0 0 (-7))
  have hv1 := Time.fields_valid ((env.Now.In loc).AddDate 0 0 (-1))
  rw [ha7, show (A - 7 * 86400) / 86400 = T - 7 by omega] at hd7
  rw [ha1, show (A - 1 * 86400) / 86400 = T - 1 by omega] at hd1
  have hstart : Date ((env.Now.In loc).AddDate 0 0 (-7)).Year ((env.Now.In loc).AddDate 0 0 (-7)).Month
      ((env.Now.In loc).AddDate 0 0 (-7)).Day 0 0 0 0 loc =
      ⟨zoneAdjust loc ((T - 7) * 86400 - unixToAbsolute), 0, loc⟩ := by
    rw [Date_eq _ _ _ _ _ _ _ _ ⟨hv7.1, hv7.2.1⟩ (by omega) (by omega) (by omega) (by omega), hd7]
    congr 2; omega
  have hend : Date ((env.Now.In loc).AddDate 0 0 (-1)).Year ((env.Now.In loc).AddDate 0 0 (-1)).Month
      ((env.Now.In loc).AddDate 0 0 (-1)).Day 11 59 59 999999999 loc =
      ⟨zoneAdjust loc ((T - 1) * 86400 + 43199 - unixToAbsolute), 999999999, loc⟩ := by
    rw [Date_eq _ _ _ _ _ _ _ _ ⟨hv1.1, hv1.2.1⟩ (by omega) (by omega) (by omega) (by omega), hd1]
    congr 2
  have hsa : ((Time.mk (zoneAdjust loc ((T - 7) * 86400 - unixToAbsolute)) 0 loc).In loc).abs =
      (T - 7) * 86400 := Time.abs_found loc hasc _ _ hs
  have hea : ((Time.mk (zoneAdjust loc ((T - 1) * 86400 + 43199 - unixToAbsolute)) 999999999
      loc).In loc).abs = (T - 1) * 86400 + 43199 :=
    Time.abs_found loc hasc _ _ he
  refine ⟨⟨zoneAdjust loc ((T - 7) * 86400 - unixToAbsolute), 0, loc⟩,
    ⟨zoneAdjust loc ((T - 1) * 86400 + 43199 - unixToAbsolute), 999999999, loc⟩, ?_, ?_⟩
  · unfold datesFromHistory
    rw [hload]
    simp only [show ¬ ("week" = "yesterday") by decide, show ¬ ("week" = "today") by decide,
      if_false, if_true, hstart, hend]
  · have l1 : (Time.mk (zoneAdjust loc ((T - 7) * 86400 - unixToAbsolute)) 0 loc).localDay loc =
        T - 7 := by
      unfold Time.localDay; rw [hsa]; simp only [secondsPerDay]; omega
    have l2 : (Time.mk (zoneAdjust loc ((T - 1) * 86400 + 43199 - unixToAbsolute)) 999999999
        loc).localDay loc = T - 1 := by
      unfold Time.localDay; rw [hea]; simp only [secondsPerDay]; omega
    refine ⟨l1, ?_, rfl, ?_, l2, ?_, ?_⟩
    · unfold Time.Clock; rw [hsa]; exact absClock_midnight _
    · rw [Time.ymd_eq, hsa]; exact civil_of_abs _ _ (by omega)
    · rw [Time.ymd_eq, hea]; exact civil_of_abs _ _ (by omega)
    · rw [l1, l2]; ring

theorem civil_prev_same_month (n : Int) (h : (civil n).2.2 ≠ 1) :
    (civil (n - 1)).1 = (civil n).1 ∧ (civil (n - 1)).2.1 = (civil n).2.1 := by
  obtain ⟨hv, hd⟩ := absDateFull_spec (n * 86400)
  have hc : civil n = absDateFull (n * 86400) := rfl
  rw [hc] at h ⊢
  have hv' : ValidDate (absDateFull (n * 86400)).1 (absDateFull (n * 86400)).2.1
      ((absDateFull (n * 86400)).2.2 - 1) := by
    obtain ⟨a, b, c, d⟩ := hv
    exact ⟨a, b, by omega, by omega⟩
  have hd' : dayNumber (absDateFull (n * 86400)).1 (absDateFull (n * 86400)).2.1
      ((absDateFull (n * 86400)).2.2 - 1) = n - 1 := by
    have := dayNumber_add (absDateFull (n * 86400)).1 (absDateFull (n * 86400)).2.1
      (absDateFull (n * 86400)).2.2 (-1)
    rw [← sub_eq_add_neg] at this
    rw [this, hd]; omega
  have h3 := absDateFull_dayNumber _ _ _ 0 hv' (by omega)
  rw [hd', add_zero] at h3
  have hc' : civil (n - 1) = absDateFull ((n - 1) * 86400) := rfl
  rw [hc', h3]
  exact ⟨rfl, rfl⟩

/-- C2, amended: in a timezone, its transitions in ascending order, in which the
two wall-clock times that the resolver hands to `time.Date` on the way to the
start exist (the current wall-clock time one day earlier, and 00:00:00 of day 1
of the month that contains the day before today), the start of `month-to-date`
is 00:00:00.000000000 of day 1 of the month that contains the day before today
(the day the range ends on).  That is the month of today unless today is the
1st, when it is the month before. -/
theorem month_to_date_start (env : Env) (tz : String) (loc : Location)
    (hload : env.loadLocation tz = some loc) (hasc : loc.ascending)
    (h1 : loc.hasWallClock ((env.Now.In loc).abs - 1 * 86400))
    (hs : loc.hasWallClock (dayNumber (civil (env.Now.localDay loc - 1)).1
      (civil (env.Now.localDay loc - 1)).2.1 1 * 86400)) :
    ∃ s e, datesFromHistory env "month-to-date" tz = some (s, e, none) ∧
      ((s.In loc).Year, (s.In loc).Month, (s.In loc).Day) =
        ((civil (env.Now.localDay loc - 1)).1, (civil (env.Now.localDay loc - 1)).2.1, 1) ∧
      (s.In loc).Clock = (0, 0, 0) ∧ s.nsec = 0 ∧
      ((env.Now.In loc).Day ≠ 1 →
        (s.In loc).Year = (env.Now.In loc).Year ∧ (s.In loc).Month = (env.Now.In loc).Month) := by
  have hns : 0 ≤ (env.Now.In loc).nsec ∧ (env.Now.In loc).nsec < 1000000000 := env.nsecValid
  obtain ⟨A, hA⟩ : ∃ A, A = (env.Now.In loc).abs := ⟨_, rfl⟩
  obtain ⟨T, hT⟩ : ∃ T, T = env.Now.localDay loc := ⟨_, rfl⟩
  have hTA : T = A / 86400 := by rw [hT, hA]; rfl
  rw [← hA] at h1
  rw [← hT] at hs ⊢
  have ha1 : ((env.Now.In loc).AddDate 0 0 (-1)).abs = A - 1 * 86400 := by
    rw [AddDate_found _ _ hasc hns (by rw [← hA]; exact (by ring_nf; ring_nf at h1; exact h1)), ← hA]
    ring
  have hv := Time.fields_valid ((env.Now.In loc).AddDate 0 0 (-1))
  have hciv : (((env.Now.In loc).AddDate 0 0 (-1)).Year, ((env.Now.In loc).AddDate 0 0 (-1)).Month,
      ((env.Now.In loc).AddDate 0 0 (-1)).Day) = civil (T - 1) := by
    rw [Time.ymd_eq, ha1]; exact civil_of_abs _ _ (by omega)
  obtain ⟨Y, hY⟩ : ∃ Y, Y = ((env.Now.In loc).AddDate 0 0 (-1)).Year := ⟨_, rfl⟩
  obtain ⟨M, hM⟩ : ∃ M, M = ((env.Now.In loc).AddDate 0 0 (-1)).Month := ⟨_, rfl⟩
  obtain ⟨D, hD⟩ : ∃ D, D = ((env.Now.In loc).AddDate 0 0 (-1)).Day := ⟨_, rfl⟩
  rw [← hY, ← hM, ← hD] at hv hciv
  have hYM : Y = (civil (T - 1)).1 ∧ M = (civil (T - 1)).2.1 := by
    rw [← hciv]; exact ⟨rfl, rfl⟩
  rw [← hYM.1, ← hYM.2] at hs ⊢
  have hstart : Date Y M 1 0 0 0 0 loc =
      ⟨zoneAdjust loc (dayNumber Y M 1 * 86400 - unixToAbsolute), 0, loc⟩ := by
    rw [Date_eq _ _ _ _ _ _ _ _ ⟨hv.1, hv.2.1⟩ (by omega) (by omega) (by omega) (by omega)]
    congr 2; omega
  have hsa : ((Time.mk (zoneAdjust loc (dayNumber Y M 1 * 86400 - unixToAbsolute)) 0 loc).In
      loc).abs = dayNumber Y M 1 * 86400 + 0 := by
    rw [add_zero]; exact Time.abs_found loc hasc _ _ hs
  have hv1 : ValidDate Y M 1 := ⟨hv.1, hv.2.1, le_refl 1, le_trans hv.2.2.1 hv.2.2.2⟩
  have hfields : absDateFull (dayNumber Y M 1 * 86400 + 0) = (Y, M, 1) :=
    absDateFull_dayNumber Y M 1 0 hv1 (by omega)
  refine ⟨⟨zoneAdjust loc (dayNumber Y M 1 * 86400 - unixToAbsolute), 0, loc⟩,
    Date Y M D 11 59 59 999999999 loc, ?_, ?_⟩
  · unfold datesFromHistory
    rw [hload]
    simp only [show ¬ ("month-to-date" = "yesterday") by decide,
      show ¬ ("month-to-date" = "today") by decide, show ¬ ("month-to-date" = "week") by decide,
      if_false, if_true, ← hY, ← hM, ← hD, hstart]
  · have hymd : ((Time.mk (zoneAdjust loc (dayNumber Y M 1 * 86400 - unixToAbsolute)) 0 loc).In
          loc).Year = Y ∧
        ((Time.mk (zoneAdjust loc (dayNumber Y M 1 * 86400 - unixToAbsolute)) 0 loc).In
          loc).Month = M ∧
        ((Time.mk (zoneAdjust loc (dayNumber Y M 1 * 86400 - unixToAbsolute)) 0 loc).In
          loc).Day = 1 := by
      unfold Time.Year Time.Month Time.Day
      rw [hsa, hfields]
      exact ⟨rfl, rfl, rfl⟩
    refine ⟨?_, ?_, rfl, ?_⟩
    · rw [hymd.1, hymd.2.1, hymd.2.2]
    · unfold Time.Clock
      rw [hsa, add_zero]
      exact absClock_midnight _
    · intro hday
      have hnowciv : ((env.Now.In loc).Year, (env.Now.In loc).Month, (env.Now.In loc).Day) =
          civil T := by
        rw [Time.ymd_eq, ← hA]; exact civil_of_abs _ _ hTA.symm
      have h1 : (civil T).2.2 ≠ 1 := by rw [← hnowciv]; exact hday
      obtain ⟨p1, p2⟩ := civil_prev_same_month T h1
      rw [hymd.1, hymd.2.1, hYM.1, hYM.2, p1, p2, ← hnowciv]
      exact ⟨rfl, rfl⟩

/-! ### The two parsers against the accepted forms -/

theorem digitVal_eq_some (c : Char) (v : Int) :
    digitVal c = some v ↔ IsDigit c ∧ v = digitNat c := by
  unfold digitVal IsDigit digitNat
  by_cases h : 48 ≤ c.toNat ∧ c.toNat ≤ 57
  · rw [if_pos h]
    simp only [Option.some.injEq, h, true_and, and_self]
    exact eq_comm
  · rw [if_neg h]
    simp only [h, false_and, reduceCtorEq]

theorem digitVal_eq_none (c : Char) : digitVal c = none ↔ ¬ IsDigit c := by
  unfold digitVal IsDigit
  by_cases h : 48 ≤ c.toNat ∧ c.toNat ≤ 57
  · rw [if_pos h]; simp only [h, reduceCtorEq, and_self, not_true_eq_false]
  · rw [if_neg h]; simp only [h, not_false_eq_true]

theorem digitNat_range (c : Char) (h : IsDigit c) : 0 ≤ digitNat c ∧ digitNat c ≤ 9 := by
  unfold IsDigit at h
  unfold digitNat
  simp only [Int.ofNat_eq_coe]
  omega

theorem getnum_eq_some (l rest : List Char) (n : Int) :
    getnum l = some (n, rest) ↔
      ∃ c1 c2, l = c1 :: c2 :: rest ∧ IsDigit c1 ∧ IsDigit c2 ∧ n = decimalValue [c1, c2] := by
  constructor
  · intro h
    rcases l with _ | ⟨c1, _ | ⟨c2, r⟩⟩
    · simp [getnum] at h
    · simp [getnum] at h
    · rcases h1 : digitVal c1 with _ | v1
      · simp [getnum, h1] at h
      · rcases h2 : digitVal c2 with _ | v2
        · simp [getnum, h1, h2] at h
        · simp only [getnum, h1, h2, Option.some.injEq, Prod.mk.injEq] at h
          obtain ⟨i1, e1⟩ := (digitVal_eq_some c1 v1).mp h1
          obtain ⟨i2, e2⟩ := (digitVal_eq_some c2 v2).mp h2
          refine ⟨c1, c2, by rw [h.2], i1, i2, ?_⟩
          rw [← h.1, e1, e2]
          simp [decimalValue, decimalFrom]
  · rintro ⟨c1, c2, rfl, i1, i2, rfl⟩
    simp [getnum, (digitVal_eq_some c1 _).mpr ⟨i1, rfl⟩, (digitVal_eq_some c2 _).mpr ⟨i2, rfl⟩,
      decimalValue, decimalFrom]

theorem parseLongYear_eq_some (l rest : List Char) (n : Int) :
    parseLongYear l = some (n, rest) ↔
      ∃ c1 c2 c3 c4, l = c1 :: c2 :: c3 :: c4 :: rest ∧
        (IsDigit c1 ∧ IsDigit c2 ∧ IsDigit c3 ∧ IsDigit c4) ∧
        n = decimalValue [c1, c2, c3, c4] := by
  constructor
  · intro h
    rcases l with _ | ⟨c1, _ | ⟨c2, _ | ⟨c3, _ | ⟨c4, r⟩⟩⟩⟩
    · simp [parseLongYear] at h
    · simp [parseLongYear] at h
    · simp [parseLongYear] at h
    · simp [parseLongYear] at h
    · rcases h1 : digitVal c1 with _ | v1
      · simp [parseLongYear, h1] at h
      rcases h2 : digitVal c2 with _ | v2
      · simp [parseLongYear, h1, h2] at h
      rcases h3 : digitVal c3 with _ | v3
      · simp [parseLongYear, h1, h2, h3] at h
      rcases h4 : digitVal c4 with _ | v4
      · simp [parseLongYear, h1, h2, h3, h4] at h
      simp only [parseLongYear, h1, h2, h3, h4, Option.some.injEq, Prod.mk.injEq] at h
      obtain ⟨i1, e1⟩ := (digitVal_eq_some c1 v1).mp h1
      obtain ⟨i2, e2⟩ := (digitVal_eq_some c2 v2).mp h2
      obtain ⟨i3, e3⟩ := (digitVal_eq_some c3 v3).mp h3
      obtain ⟨i4, e4⟩ := (digitVal_eq_some c4 v4).mp h4
      refine ⟨c1, c2, c3, c4, by rw [h.2], ⟨i1, i2, i3, i4⟩, ?_⟩
      rw [← h.1, e1, e2, e3, e4]
      simp [decimalValue, decimalFrom]
  · rintro ⟨c1, c2, c3, c4, rfl, ⟨i1, i2, i3, i4⟩, rfl⟩
    simp [parseLongYear, (digitVal_eq_some c1 _).mpr ⟨i1, rfl⟩,
      (digitVal_eq_some c2 _).mpr ⟨i2, rfl⟩, (digitVal_eq_some c3 _).mpr ⟨i3, rfl⟩,
      (digitVal_eq_some c4 _).mpr ⟨i4, rfl⟩, decimalValue, decimalFrom]

theorem skipDash_eq_some (l rest : List Char) : skipDash l = some rest ↔ l = '-' :: rest := by
  rcases l with _ | ⟨c, r⟩
  · simp [skipDash]
  · unfold skipDash
    by_cases h : c = '-'
    · simp [h]
    · simp [h]

theorem parseFields_eq_some (l : List Char) (y m d : Int) :
    parseFields l = some (y, m, d) ↔
      ∃ y1 y2 y3 y4 m1 m2 d1 d2 : Char,
        l = [y1, y2, y3, y4, '-', m1, m2, '-', d1, d2] ∧
        (IsDigit y1 ∧ IsDigit y2 ∧ IsDigit y3 ∧ IsDigit y4) ∧
        (IsDigit m1 ∧ IsDigit m2) ∧ (IsDigit d1 ∧ IsDigit d2) ∧
        y = decimalValue [y1, y2, y3, y4] ∧ m = decimalValue [m1, m2] ∧
        d = decimalValue [d1, d2] ∧ ValidDate y m d := by
  constructor
  · intro h
    unfold parseFields at h
    rcases h1 : parseLongYear l with _ | ⟨y', r1⟩
    · rw [h1] at h; cases h
    rw [h1] at h
    simp only at h
    rcases h2 : skipDash r1 with _ | r2
    · rw [h2] at h; cases h
    rw [h2] at h
    simp only at h
    rcases h3 : getnum r2 with _ | ⟨m', r3⟩
    · rw [h3] at h; cases h
    rw [h3] at h
    simp only at h
    by_cases hm : m' ≤ 0 ∨ 12 < m'
    · rw [if_pos hm] at h; cases h
    rw [if_neg hm] at h
    rcases h4 : skipDash r3 with _ | r4
    · rw [h4] at h; cases h
    rw [h4] at h
    simp only at h
    rcases h5 : getnum r4 with _ | ⟨d', r5⟩
    · rw [h5] at h; cases h
    rw [h5] at h
    simp only at h
    by_cases hr : r5 ≠ []
    · rw [if_pos hr] at h; cases h
    rw [if_neg hr] at h
    by_cases hd : d' < 1 ∨ d' > daysIn m' y'
    · rw [if_pos hd] at h; cases h
    rw [if_neg hd] at h
    simp only [Option.some.injEq, Prod.mk.injEq] at h
    obtain ⟨rfl, rfl, rfl⟩ := h
    obtain ⟨y1, y2, y3, y4, rfl, hy, ey⟩ := (parseLongYear_eq_some _ _ _).mp h1
    obtain rfl := (skipDash_eq_some _ _).mp h2
    obtain ⟨m1, m2, rfl, hm1, hm2, em⟩ := (getnum_eq_some _ _ _).mp h3
    obtain rfl := (skipDash_eq_some _ _).mp h4
    obtain ⟨d1, d2, rfl, hd1, hd2, ed⟩ := (getnum_eq_some _ _ _).mp h5
    have hr' : r5 = [] := not_not.mp hr
    subst hr'
    refine ⟨y1, y2, y3, y4, m1, m2, d1, d2, rfl, hy, ⟨hm1, hm2⟩, ⟨hd1, hd2⟩, ey, em, ed, ?_⟩
    unfold ValidDate
    omega
  · rintro ⟨y1, y2, y3, y4, m1, m2, d1, d2, rfl, hy, ⟨hm1, hm2⟩, ⟨hd1, hd2⟩, ey, em, ed, hv⟩
    unfold parseFields
    rw [(parseLongYear_eq_some _ ['-', m1, m2, '-', d1, d2] y).mpr
      ⟨y1, y2, y3, y4, rfl, hy, ey⟩]
    simp only
    rw [(skipDash_eq_some _ [m1, m2, '-', d1, d2]).mpr rfl]
    simp only
    rw [(getnum_eq_some _ ['-', d1, d2] m).mpr ⟨m1, m2, rfl, hm1, hm2, em⟩]
    simp only
    unfold ValidDate at hv
    rw [if_neg (by omega), (skipDash_eq_some _ [d1, d2]).mpr rfl]
    simp only
    rw [(getnum_eq_some _ [] d).mpr ⟨d1, d2, rfl, hd1, hd2, ed⟩]
    simp only
    rw [if_neg (by simp), if_neg (by omega)]

theorem timeParse_eq_none_iff (h : String) : timeParse h = none ↔ ¬ IsIsoDate h := by
  unfold timeParse IsIsoDate
  constructor
  · intro hn ⟨y1, y2, y3, y4, m1, m2, d1, d2, hl, hy, hm, hd, hv⟩
    have := (parseFields_eq_some h.toList _ _ _).mpr
      ⟨y1, y2, y3, y4, m1, m2, d1, d2, hl, hy, hm, hd, rfl, rfl, rfl, hv⟩
    rw [this] at hn
    cases hn
  · intro hn
    rcases hp : parseFields h.toList with _ | ⟨y, m, d⟩
    · rfl
    · exfalso
      obtain ⟨y1, y2, y3, y4, m1, m2, d1, d2, hl, hy, hm, hd, rfl, rfl, rfl, hv⟩ :=
        (parseFields_eq_some h.toList _ _ _).mp hp
      exact hn ⟨y1, y2, y3, y4, m1, m2, d1, d2, hl, hy, hm, hd, hv⟩

theorem decimalFrom_mono (l : List Char) :
    ∀ n : Int, 0 ≤ n → (∀ c ∈ l, IsDigit c) → n ≤ decimalFrom n l := by
  induction l with
  | nil => intro n _ _; exact le_refl n
  | cons c rest ih =>
    intro n hn hd
    have hc := digitNat_range c (hd c (List.mem_cons_self c rest))
    have := ih (n * 10 + digitNat c) (by omega) (fun x hx => hd x (List.mem_cons_of_mem c hx))
    show n ≤ decimalFrom (n * 10 + digitNat c) rest
    omega

theorem parseUintLoop_ok (l : List Char) :
    ∀ n : Int, 0 ≤ n → n ≤ 2 ^ 32 - 1 → (∀ c ∈ l, IsDigit c) → decimalFrom n l ≤ 2 ^ 32 - 1 →
      parseUintLoop l n = (decimalFrom n l, none) := by
  induction l with
  | nil => intro n _ _ _ _; rfl
  | cons c rest ih =>
    intro n hn hn' hd hv
    have hc := hd c (List.mem_cons_self c rest)
    have hr := digitNat_range c hc
    have hrest : ∀ x ∈ rest, IsDigit x := fun x hx => hd x (List.mem_cons_of_mem c hx)
    have hmono := decimalFrom_mono rest (n * 10 + digitNat c) (by omega) hrest
    have hv' : decimalFrom (n * 10 + digitNat c) rest ≤ 2 ^ 32 - 1 := hv
    have hstep : n * 10 + digitNat c ≤ 2 ^ 32 - 1 := le_trans hmono hv'
    unfold parseUintLoop
    rw [(digitVal_eq_some c _).mpr ⟨hc, rfl⟩]
    simp only
    norm_num only at hn' hstep ⊢
    rw [if_neg (by omega)]
    have hmod : (n * 10 + digitNat c) % 18446744073709551616 = n * 10 + digitNat c := by omega
    rw [hmod, if_neg (by omega)]
    exact ih _ (by omega) (by omega) hrest hv

theorem parseUintLoop_err (l : List Char) :
    ∀ n : Int, 0 ≤ n → n ≤ 2 ^ 32 - 1 →
      ¬ ((∀ c ∈ l, IsDigit c) ∧ decimalFrom n l ≤ 2 ^ 32 - 1) →
      parseUintLoop l n = (0, some NumErrKind.invalidSyntaxErr) ∨
      parseUintLoop l n = (2 ^ 32 - 1, some NumErrKind.outOfRangeErr) := by
  induction l with
  | nil =>
    intro n _ hn' h
    exact absurd ⟨fun c hc => absurd hc (List.not_mem_nil c), hn'⟩ h
  | cons c rest ih =>
    intro n hn hn' h
    unfold parseUintLoop
    by_cases hc : IsDigit c
    · have hr := digitNat_range c hc
      rw [(digitVal_eq_some c _).mpr ⟨hc, rfl⟩]
      simp only
      norm_num only at hn' ⊢
      rw [if_neg (by omega)]
      have hmod : (n * 10 + digitNat c) % 18446744073709551616 = n * 10 + digitNat c := by omega
      rw [hmod]
      by_cases hbig : n * 10 + digitNat c < n * 10 ∨ n * 10 + digitNat c > 4294967295
      · rw [if_pos hbig]; right; rfl
      · rw [if_neg hbig]
        refine ih _ (by omega) (by norm_num only; omega) ?_
        rintro ⟨h1, h2⟩
        apply h
        refine ⟨?_, h2⟩
        intro x hx
        rcases List.mem_cons.mp hx with rfl | hx'
        · exact hc
        · exact h1 x hx'
    · rw [(digitVal_eq_none c).mpr hc]
      left; rfl

theorem ParseUint_ok (s : List Char) (hs : s ≠ []) (hd : ∀ c ∈ s, IsDigit c)
    (hv : decimalValue s ≤ 2 ^ 32 - 1) : ParseUint s = (decimalValue s, none) := by
  unfold ParseUint
  rw [if_neg hs]
  exact parseUintLoop_ok s 0 (le_refl 0) (by norm_num) hd hv

theorem ParseUint_err (s : List Char)
    (h : ¬ (s ≠ [] ∧ (∀ c ∈ s, IsDigit c) ∧ decimalValue s ≤ 2 ^ 32 - 1)) :
    ParseUint s = (0, some NumErrKind.invalidSyntaxErr) ∨
      ParseUint s = (2 ^ 32 - 1, some NumErrKind.outOfRangeErr) := by
  unfold ParseUint
  by_cases hs : s = []
  · rw [if_pos hs]; left; rfl
  · rw [if_neg hs]
    exact parseUintLoop_err s 0 (le_refl 0) (by norm_num) (fun hh => h ⟨hs, hh⟩)

theorem not_digit_plus : ¬ IsDigit '+' := by decide

theorem not_digit_minus : ¬ IsDigit '-' := by decide

theorem ParseInt_cons (h : String) (c : Char) (rest : List Char) (hl : h.toList = c :: rest) :
    (ParseInt h).2 = none ↔
      ((if c = '+' ∨ c = '-' then rest else c :: rest) ≠ [] ∧
        (∀ x ∈ (if c = '+' ∨ c = '-' then rest else c :: rest), IsDigit x) ∧
        (if c = '-' then decimalValue (if c = '+' ∨ c = '-' then rest else c :: rest) ≤ 2 ^ 31
          else decimalValue (if c = '+' ∨ c = '-' then rest else c :: rest) ≤ 2 ^ 31 - 1)) := by
  unfold ParseInt
  rw [hl]
  simp only
  generalize (if c = '+' ∨ c = '-' then rest else c :: rest) = s
  by_cases hok : s ≠ [] ∧ (∀ x ∈ s, IsDigit x) ∧ decimalValue s ≤ 2 ^ 32 - 1
  · rw [ParseUint_ok s hok.1 hok.2.1 hok.2.2]
    simp only
    by_cases hneg : c = '-'
    · simp only [hneg, not_true_eq_false, false_and, if_false, true_and, if_true, hok.1, hok.2.1,
        ne_eq, not_false_eq_true]
      by_cases hv : decimalValue s > 2 ^ 31
      · rw [if_pos hv]
        simp only [reduceCtorEq, false_iff]
        omega
      · rw [if_neg hv]
        simp only [true_iff, implies_true, true_and]
        exact ⟨hok.2.1, by omega⟩
    · simp only [hneg, not_false_eq_true, true_and, false_and, if_false, hok.1, hok.2.1, ne_eq]
      by_cases hv : decimalValue s ≥ 2 ^ 31
      · rw [if_pos hv]
        simp only [reduceCtorEq, false_iff]
        omega
      · rw [if_neg hv]
        simp only [true_iff, implies_true, true_and]
        exact ⟨hok.2.1, by omega⟩
  · have hrhs : ¬ (s ≠ [] ∧ (∀ x ∈ s, IsDigit x) ∧
        (if c = '-' then decimalValue s ≤ 2 ^ 31 else decimalValue s ≤ 2 ^ 31 - 1)) := by
      rintro ⟨h1, h2, h3⟩
      apply hok
      refine ⟨h1, h2, ?_⟩
      split_ifs at h3 <;> omega
    rcases ParseUint_err s hok with e | e
    · rw [e]
      simp only [reduceCtorEq, false_iff]
      exact hrhs
    · rw [e]
      simp only
      by_cases hneg : c = '-'
      · simp only [hneg, not_true_eq_false, false_and, if_false, true_and]
        rw [if_pos (by norm_num)]
        simp only [reduceCtorEq, false_iff]
        simpa [hneg] using hrhs
      · simp only [hneg, not_false_eq_true, true_and]
        rw [if_pos (by norm_num)]
        simp only [reduceCtorEq, false_iff]
        simpa [hneg] using hrhs

theorem ParseInt_ok_iff (h : String) : (ParseInt h).2 = none ↔ IsInt32 h := by
  rcases hl : h.toList with _ | ⟨c, rest⟩
  · constructor
    · intro hp
      unfold ParseInt at hp
      rw [hl] at hp
      cases hp
    · rintro ⟨sign, digits, e, -, hne, -⟩
      rw [hl] at e
      have := List.append_eq_nil.mp e.symm
      exact absurd this.2 hne
  · rw [ParseInt_cons h c rest hl]
    unfold IsInt32
    rw [hl]
    constructor
    · rintro ⟨h1, h2, h3⟩
      by_cases hp : c = '+'
      · subst hp
        simp only [true_or, if_true] at h1 h2 h3
        rw [if_neg (by decide)] at h3
        exact ⟨['+'], rest, rfl, Or.inr (Or.inl rfl), h1, h2, by rw [if_neg (by decide)]; exact h3⟩
      · by_cases hm : c = '-'
        · subst hm
          simp only [or_true, if_true] at h1 h2 h3
          exact ⟨['-'], rest, rfl, Or.inr (Or.inr rfl), h1, h2, by rw [if_pos rfl]; exact h3⟩
        · have hn : ¬ (c = '+' ∨ c = '-') := by rintro (h | h) <;> contradiction
          rw [if_neg hn] at h1 h2 h3
          rw [if_neg hm] at h3
          exact ⟨[], c :: rest, rfl, Or.inl rfl, h1, h2, by rw [if_neg (by simp)]; exact h3⟩
    · rintro ⟨sign, digits, e, hs, hne, hd, hv⟩
      rcases hs with rfl | rfl | rfl
      · simp only [List.nil_append] at e
        subst e
        have hc : IsDigit c := hd c (List.mem_cons_self c rest)
        have hp : c ≠ '+' := fun h => not_digit_plus (h ▸ hc)
        have hm : c ≠ '-' := fun h => not_digit_minus (h ▸ hc)
        have hn : ¬ (c = '+' ∨ c = '-') := by rintro (h | h) <;> contradiction
        rw [if_neg (by simp)] at hv
        rw [if_neg hn, if_neg hm]
        exact ⟨hne, hd, hv⟩
      · simp only [List.singleton_append, List.cons.injEq] at e
        obtain ⟨rfl, rfl⟩ := e
        rw [if_neg (by decide)] at hv
        simp only [true_or, if_true]
        rw [if_neg (by decide)]
        exact ⟨hne, hd, hv⟩
      · simp only [List.singleton_append, List.cons.injEq] at e
        obtain ⟨rfl, rfl⟩ := e
        rw [if_pos rfl] at hv
        simp only [or_true, if_true]
        exact ⟨hne, hd, hv⟩

/-- C4, amended: with a timezone that loads, the resolver returns a non-nil error
for every history that is none of the four keywords, not a `YYYY-MM-DD` date of
an existing day, and not a decimal integer with an optional `+` or `-` sign
whose value fits in 32 bits; and it returns no error for every history of one
of these forms.  A negative integer such as `-3` is among the accepted forms,
and a digit string too large for 32 bits is not. -/
theorem datesFromHistory_error_iff_not_accepted (env : Env) (history tz : String)
    (loc : Location) (hload : env.loadLocation tz = some loc) :
    ((¬ IsKeyword history ∧ ¬ IsIsoDate history ∧ ¬ IsInt32 history) →
      ∃ s e err, datesFromHistory env history tz = some (s, e, some err)) ∧
    ((IsKeyword history ∨ IsIsoDate history ∨ IsInt32 history) →
      ∃ s e, datesFromHistory env history tz = some (s, e, none)) := by
  unfold datesFromHistory IsKeyword
  rw [hload]
  simp only
  by_cases h1 : history = "yesterday"
  · rw [if_pos h1]
    exact ⟨fun h => absurd (Or.inl h1) h.1, fun _ => ⟨_, _, rfl⟩⟩
  rw [if_neg h1]
  by_cases h2 : history = "today"
  · rw [if_pos h2]
    exact ⟨fun h => absurd (Or.inr (Or.inl h2)) h.1, fun _ => ⟨_, _, rfl⟩⟩
  rw [if_neg h2]
  by_cases h3 : history = "week"
  · rw [if_pos h3]
    exact ⟨fun h => absurd (Or.inr (Or.inr (Or.inl h3))) h.1, fun _ => ⟨_, _, rfl⟩⟩
  rw [if_neg h3]
  by_cases h4 : history = "month-to-date"
  · rw [if_pos h4]
    exact ⟨fun h => absurd (Or.inr (Or.inr (Or.inr h4))) h.1, fun _ => ⟨_, _, rfl⟩⟩
  rw [if_neg h4]
  have hk : ¬ (history = "yesterday" ∨ history = "today" ∨ history = "week" ∨
      history = "month-to-date") := by
    rintro (h | h | h | h) <;> contradiction
  rcases hp : timeParse history with _ | tempDate
  · have hdate : ¬ IsIsoDate history := (timeParse_eq_none_iff history).mp hp
    simp only
    rcases hi : ParseInt history with ⟨days, _ | err⟩
    · have hint : IsInt32 history := (ParseInt_ok_iff history).mp (by rw [hi])
      exact ⟨fun h => absurd hint h.2.2, fun _ => ⟨_, _, rfl⟩⟩
    · have hint : ¬ IsInt32 history := by
        intro h
        have := (ParseInt_ok_iff history).mpr h
        rw [hi] at this
        cases this
      refine ⟨fun _ => ⟨_, _, err, rfl⟩, ?_⟩
      rintro (h | h | h)
      · exact absurd h hk
      · exact absurd h hdate
      · exact absurd h hint
  · have hdate : IsIsoDate history := by
      by_contra h
      rw [(timeParse_eq_none_iff history).mpr h] at hp
      cases hp
    exact ⟨fun h => absurd hdate h.2.1, fun _ => ⟨_, _, rfl⟩⟩

/-! ### The general statements at concrete inputs -/

/-- C2 (amended) at a concrete input: on 2023-04-10 in Berlin, two weeks after
the change to summer time, the start of `month-to-date` is 2023-04-01 00:00:00
Berlin time. -/
theorem month_to_date_start_witness :
    datesFromHistory (envAt 1681128000) "month-to-date" "Europe/Berlin" =
      some (⟨1680300000, 0, berlin⟩, ⟨1681034399, 999999999, berlin⟩, none) ∧
    ∃ s e, datesFromHistory (envAt 1681128000) "month-to-date" "Europe/Berlin" =
        some (s, e, none) ∧
      ((s.In berlin).Year, (s.In berlin).Month, (s.In berlin).Day) =
        ((civil ((envAt 1681128000).Now.localDay berlin - 1)).1,
          (civil ((envAt 1681128000).Now.localDay berlin - 1)).2.1, 1) ∧
      (s.In berlin).Clock = (0, 0, 0) ∧ s.nsec = 0 ∧
      (((envAt 1681128000).Now.In berlin).Day ≠ 1 →
        (s.In berlin).Year = ((envAt 1681128000).Now.In berlin).Year ∧
          (s.In berlin).Month = ((envAt 1681128000).Now.In berlin).Month) :=
  ⟨by decide, month_to_date_start (envAt 1681128000) "Europe/Berlin" berlin (by decide)
    (by decide) (by decide) (by decide)⟩

/-- C4 (amended) at concrete inputs: `not-a-date` is rejected. -/
theorem datesFromHistory_error_iff_not_accepted_witness :
    ∃ s e err, datesFromHistory envJune15 "not-a-date" "Etc/UTC" = some (s, e, some err) :=
  (datesFromHistory_error_iff_not_accepted envJune15 "not-a-date" "Etc/UTC" UTC
    (by decide)).1
    ⟨by unfold IsKeyword; decide, (timeParse_eq_none_iff "not-a-date").mp (by decide),
      fun h => absurd ((ParseInt_ok_iff "not-a-date").mpr h) (by decide)⟩

theorem apia_offsetAt (u : Int) :
    apia.offsetAt u =
      if u < 1316872800 then -39600 else if u < 1325239200 then -36000
      else if u < 1333202400 then 50400 else 46800 := by
  unfold Location.offsetAt Location.lookup apia
  simp only [lookupFrom]
  split_ifs <;> rfl

theorem apia_bound (u : Int) : -129600 ≤ apia.offsetAt u ∧ apia.offsetAt u ≤ 129600 := by
  rw [apia_offsetAt]
  split_ifs <;> norm_num

theorem apia_wallOffset (w : Int) :
    apia.wallOffset w =
      if w < 1316833200 then -39600 else if w < 1325203200 then -36000
      else if w < 1325239200 then 50400 else if w < 1325289600 then -36000
      else if w < 1333249200 then 50400 else 46800 := by
  unfold Location.wallOffset
  rw [apia_offsetAt w]
  split_ifs with h1 h2 h3 h4 h5 h6 h7 h8 <;> rw [apia_offsetAt] <;> split_ifs <;> first | rfl | omega

theorem apia_day_order (n m : Int) (h : n ≤ m) :
    apia.wallOffset (m * 86400 + 43199 - unixToAbsolute) -
      apia.wallOffset (n * 86400 - unixToAbsolute) < 43200 + (m - n) * 86400 := by
  have hU : unixToAbsolute = 9223372028715321600 := rfl
  rw [apia_wallOffset, apia_wallOffset, hU]
  split_ifs <;> omega

theorem tenDaysEast_offsetAt (u : Int) :
    tenDaysEast.offsetAt u =
      if u < 1686225600 then 0 else if u < 1686225610 then 864000 else 0 := by
  unfold Location.offsetAt Location.lookup tenDaysEast
  simp only [lookupFrom]
  split_ifs <;> rfl

/-- The zone that is ten days east of UTC for ten seconds has its transitions in
ascending order and keeps every midnight before the noons that follow it: of
the conditions on the timezone, it fails the bound on the offsets only. -/
theorem tenDaysEast_day_order :
    tenDaysEast.ascending ∧
    ∀ n m : Int, n ≤ m →
      tenDaysEast.wallOffset (m * 86400 + 43199 - unixToAbsolute) -
        tenDaysEast.wallOffset (n * 86400 - unixToAbsolute) < 43200 + (m - n) * 86400 := by
  have hw : ∀ w, tenDaysEast.wallOffset w = 0 := by
    intro w
    unfold Location.wallOffset
    rw [tenDaysEast_offsetAt w]
    split_ifs <;> rw [tenDaysEast_offsetAt] <;> split_ifs <;> first | rfl | omega
  refine ⟨by decide, fun n m h => ?_⟩
  rw [hw, hw]
  omega

/-- C5 (amended) at a concrete input: the history `2011-12-30` in Apia, the day
that the zone skipped when it crossed the date line.  The start is
2011-12-29 00:00:00 and the end 2011-12-31 11:59:59, Apia time. -/
theorem datesFromHistory_start_le_end_witness :
    datesFromHistory (envAt 1325282400) "2011-12-30" "Pacific/Apia" =
      some (⟨1325152800, 0, apia⟩, ⟨1325282399, 999999999, apia⟩, none) ∧
    (Time.mk 1325152800 0 apia).notAfter (Time.mk 1325282399 999999999 apia) :=
  ⟨by decide, datesFromHistory_start_le_end (envAt 1325282400) "2011-12-30" "Pacific/Apia" apia
    _ _ (by decide) (by decide) apia_bound apia_day_order (by decide)⟩

/-- C6 (amended) at a concrete input: the `week` range in Berlin on 2023-03-29, which
spans the change to summer time of 2023-03-26. -/
theorem week_range_witness :
    datesFromHistory envMarch29 "week" "Europe/Berlin" =
      some (⟨1679439600, 0, berlin⟩, ⟨1679997599, 999999999, berlin⟩, none) ∧
    ∃ s e, datesFromHistory envMarch29 "week" "Europe/Berlin" = some (s, e, none) ∧
      s.localDay berlin = envMarch29.Now.localDay berlin - 7 ∧
      (s.In berlin).Clock = (0, 0, 0) ∧ s.nsec = 0 ∧
      ((s.In berlin).Year, (s.In berlin).Month, (s.In berlin).Day) =
        civil (envMarch29.Now.localDay berlin - 7) ∧
      e.localDay berlin = envMarch29.Now.localDay berlin - 1 ∧
      ((e.In berlin).Year, (e.In berlin).Month, (e.In berlin).Day) =
        civil (envMarch29.Now.localDay berlin - 1) ∧
      e.localDay berlin - s.localDay berlin + 1 = 7 :=
  ⟨by decide, week_range envMarch29 "Europe/Berlin" berlin (by decide) (by decide) (by decide)
    (by decide) (by decide) (by decide)⟩

end Myrevenue
